import Mathlib

/-!
# LogicalGet: schema resolution, cardinality, persistence and diagnostics

A shallow embedding of `src/planner/operator/logical_get.cpp`.

* machine integers (`idx_t`, `column_t`) are natural numbers; no arithmetic that could
  overflow is performed on them by the embedded code;
* a C++ exception is the `error` side of `Except Error`;
* `vector::operator[]` is `vector_at`, which reports an out-of-range index instead of
  reading past the end;
* a loop that pushes onto a vector is a left fold that appends one element per iteration.
-/

namespace duckdb

/-! ## Data model -/

/-- Outcomes of an operation that does not return normally. The first two are the exceptions
thrown by the source file, the third is the failure of a lookup in the source registry, and
the last two stand for the two ways the source can leave defined behaviour: an index past the
end of a vector and a call through a null function pointer. -/
inductive Error where
  | InternalException (msg : String)
  | SerializationException (msg : String)
  | CatalogException (msg : String)
  | IndexOutOfRange
  | NullFunctionCall
deriving DecidableEq

/-- Modelled from the spec: the declaration of `LogicalType` is not part of the source file;
a type of the schema is identified by a number. -/
structure LogicalType where
  id : Nat
deriving DecidableEq

/-- Modelled from the spec: "a dedicated row-identifier type"; the constant
`LogicalType::ROW_TYPE` is declared outside the source file. -/
def LogicalType.ROW_TYPE : LogicalType := ⟨14⟩

/-- Modelled from the spec: "a reserved sentinel value meaning synthetic row identifier";
the constant `COLUMN_IDENTIFIER_ROW_ID` is declared outside the source file as
`(column_t)-1`, the largest 64-bit value. -/
def COLUMN_IDENTIFIER_ROW_ID : Nat := 2 ^ 64 - 1

/-- The pair `ColumnBinding(table_index, column_index)`. -/
structure ColumnBinding where
  table_index : Nat
  column_index : Nat
deriving DecidableEq

/-- Modelled from the spec: a literal argument of the bind call (`Value`). -/
structure Value where
  raw : Int
deriving DecidableEq

/-- Modelled from the spec: the opaque, source-produced bind state (`FunctionData`). -/
structure FunctionData where
  payload : List Nat
deriving DecidableEq

/-- Modelled from the spec: a pushed-down predicate; only "its own `to_string(column_name)`
formatter and its own serializer/deserializer" are used. The predicate is kept as the text its
formatter puts after the column name. -/
structure TableFilter where
  cond : String
deriving DecidableEq

/-- The member `filters` of `TableFilterSet`: a `std::map` from column index to filter, kept as
the association list in the map's iteration order. -/
structure TableFilterSet where
  filters : List (Nat × TableFilter)
deriving DecidableEq

/-- Modelled from the spec: the statistics a source estimator may return (`NodeStatistics`). -/
structure NodeStatistics where
  has_estimated_cardinality : Bool
  estimated_cardinality : Nat
  has_max_cardinality : Bool
  max_cardinality : Nat
deriving DecidableEq

/-- Modelled from the spec: the execution context, "passed opaquely into bind/rebind". -/
structure ClientContext where
  id : Nat
deriving DecidableEq

/-- The argument pack `TableFunctionBindInput(parameters, named_parameters, input_table_types,
input_table_names, function_info)` built by both decoders. -/
structure TableFunctionBindInput where
  inputs : List Value
  named_parameters : List (String × Value)
  input_table_types : List LogicalType
  input_table_names : List String
  info : Option Nat

/-- One field of the positional encoding written through `FieldWriter`. -/
inductive Field where
  | idx (v : Nat)
  | bool (b : Bool)
  | str (s : String)
  | types (ts : List LogicalType)
  | strings (ss : List String)
  | columns (cs : List Nat)
  | filters (fs : TableFilterSet)
  | values (vs : List Value)
  | value (v : Value)
  | data (payload : List Nat)
deriving DecidableEq

/-- A child operator as this node sees it: its resolved `types` and the list returned by its own
`GetColumnBindings()`. -/
structure LogicalOperator where
  types : List LogicalType
  bindings : List ColumnBinding
deriving DecidableEq

/-- The value of one named property of the self-describing encoding. -/
inductive PropertyValue where
  | idx (v : Nat)
  | bool (b : Bool)
  | str (s : String)
  | types (ts : List LogicalType)
  | strings (ss : List String)
  | columns (cs : List Nat)
  | filters (fs : TableFilterSet)
  | values (vs : List Value)
  | named_values (m : List (String × Value))
  | operator_type (t : Nat)
  | children (cs : List LogicalOperator)
  | data (payload : List Nat)
deriving DecidableEq

/-- One event of the self-describing encoding written through `FormatSerializer`. -/
inductive Token where
  | property (tag : String) (v : PropertyValue)
  | begin_object (tag : String)
  | end_object
deriving DecidableEq

/-- Modelled from the spec: the source descriptor (`TableFunction`) with its optional
capabilities: "bind", "cardinality", "to_display_string" and the two bind-state codecs, one per
encoding. An absent capability is a null function pointer. -/
structure TableFunction where
  name : String
  function_info : Option Nat
  bind : Option (ClientContext → TableFunctionBindInput →
    Except Error (Option FunctionData × List LogicalType × List String))
  cardinality : Option (ClientContext → Option FunctionData → Option NodeStatistics)
  to_string : Option (Option FunctionData → String)
  serialize : Option (Option FunctionData → List Field)
  deserialize : Option (List Field → Except Error (Option FunctionData × List Field))
  format_serialize : Option (Option FunctionData → List Token)
  format_deserialize : Option (List Token → Except Error (Option FunctionData × List Token))

/-- The default-constructed `TableFunction`: no name and no capability. -/
def TableFunction.empty : TableFunction :=
  { name := "", function_info := none, bind := none, cardinality := none, to_string := none,
    serialize := none, deserialize := none, format_serialize := none,
    format_deserialize := none }

/-- The node: the members of `LogicalGet` together with the members of the base class
`LogicalOperator` that the source file reads or writes (`children`, `types`, and the pinned
cardinality estimate). -/
structure LogicalGet where
  table_index : Nat
  function : TableFunction
  bind_data : Option FunctionData
  returned_types : List LogicalType
  names : List String
  column_ids : List Nat
  projection_ids : List Nat
  table_filters : TableFilterSet
  parameters : List Value
  named_parameters : List (String × Value)
  input_table_types : List LogicalType
  input_table_names : List String
  projected_input : List Nat
  file_filters : String
  children : List LogicalOperator
  types : List LogicalType
  has_estimated_cardinality : Bool
  estimated_cardinality : Nat

/-- The constructor `LogicalGet::LogicalGet()`: every member default-initialised. -/
def LogicalGet.default : LogicalGet :=
  { table_index := 0, function := TableFunction.empty, bind_data := none, returned_types := [],
    names := [], column_ids := [], projection_ids := [], table_filters := ⟨[]⟩,
    parameters := [], named_parameters := [], input_table_types := [], input_table_names := [],
    projected_input := [], file_filters := "", children := [], types := [],
    has_estimated_cardinality := false, estimated_cardinality := 0 }

/-- The constructor `LogicalGet::LogicalGet(table_index, function, bind_data, returned_types,
returned_names)`. -/
def LogicalGet.create (table_index : Nat) (function : TableFunction)
    (bind_data : Option FunctionData) (returned_types : List LogicalType)
    (returned_names : List String) : LogicalGet :=
  { LogicalGet.default with
    table_index := table_index, function := function, bind_data := bind_data,
    returned_types := returned_types, names := returned_names }

/-- The access `v[i]` on a vector. -/
def vector_at {α : Type} (v : List α) (i : Nat) : Except Error α :=
  match v.get? i with
  | some x => .ok x
  | none => .error .IndexOutOfRange

/-! ## Schema resolution -/

/-- The message of the internal-consistency error of both resolution functions. -/
def project_input_message : String :=
  "LogicalGet::project_input can only be set for table-in-out functions"

/-- `LogicalGet::GetColumnBindings` (lines 50-75). -/
def LogicalGet.GetColumnBindings (n : LogicalGet) : Except Error (List ColumnBinding) :=
  if n.column_ids.isEmpty then
    .ok [ColumnBinding.mk n.table_index 0]
  else do
    let result : List ColumnBinding :=
      if n.projection_ids.isEmpty then
        (List.range n.column_ids.length).foldl
          (fun result col_idx => result ++ [ColumnBinding.mk n.table_index col_idx]) []
      else
        n.projection_ids.foldl
          (fun result proj_id => result ++ [ColumnBinding.mk n.table_index proj_id]) []
    if !n.projected_input.isEmpty then
      if n.children.length != 1 then
        throw (Error.InternalException project_input_message)
      else
        let child ← vector_at n.children 0
        let child_bindings := child.bindings
        n.projected_input.foldlM
          (fun result entry => do
            let b ← vector_at child_bindings entry
            pure (result ++ [b]))
          result
    else
      pure result

/-- The body shared by the two loops of `ResolveTypes` (lines 84-88 and 93-97): push the type of
the column `index`. -/
def LogicalGet.push_column_type (returned_types : List LogicalType)
    (types : List LogicalType) (index : Nat) : Except Error (List LogicalType) :=
  if index = COLUMN_IDENTIFIER_ROW_ID then
    pure (types ++ [LogicalType.ROW_TYPE])
  else do
    let t ← vector_at returned_types index
    pure (types ++ [t])

/-- `LogicalGet::ResolveTypes` (lines 77-109). The node after the call is returned; an exception
leaves no node. -/
def LogicalGet.ResolveTypes (n : LogicalGet) : Except Error LogicalGet := do
  let column_ids :=
    if n.column_ids.isEmpty then n.column_ids ++ [COLUMN_IDENTIFIER_ROW_ID] else n.column_ids
  let types ←
    if n.projection_ids.isEmpty then
      column_ids.foldlM
        (fun types index => LogicalGet.push_column_type n.returned_types types index) n.types
    else
      n.projection_ids.foldlM
        (fun types proj_index => do
          let index ← vector_at column_ids proj_index
          LogicalGet.push_column_type n.returned_types types index)
        n.types
  let types ←
    if !n.projected_input.isEmpty then
      if n.children.length != 1 then
        throw (Error.InternalException project_input_message)
      else
        n.projected_input.foldlM
          (fun types entry => do
            let child ← vector_at n.children 0
            let t ← vector_at child.types entry
            pure (types ++ [t]))
          types
    else
      pure types
  pure { n with column_ids := column_ids, types := types }


/-! ## Closed forms of the resolution loops

The theorems below state what the loops of the two resolution functions compute as list
comprehensions; these are the comprehensions. -/

/-- The type `ty(c)` of a read column: the row-identifier type for the sentinel and
`returned_types[c]` otherwise. -/
def column_type (returned_types : List LogicalType) (c : Nat) : Except Error LogicalType :=
  if c = COLUMN_IDENTIFIER_ROW_ID then .ok LogicalType.ROW_TYPE else vector_at returned_types c

/-- The column list a node resolves against: `[ROW_ID]` when `column_ids` is empty. -/
def LogicalGet.spec_column_ids (n : LogicalGet) : List Nat :=
  if n.column_ids = [] then [COLUMN_IDENTIFIER_ROW_ID] else n.column_ids

/-- The types of the own columns of a node: `[ty(c) for c in column_ids]` without a projection
and `[ty(column_ids[p]) for p in projection_ids]` with one. -/
def LogicalGet.spec_own_types (n : LogicalGet) : Except Error (List LogicalType) :=
  if n.projection_ids = [] then
    n.spec_column_ids.mapM (column_type n.returned_types)
  else
    n.projection_ids.mapM
      (fun p => do
        let c ← vector_at n.spec_column_ids p
        column_type n.returned_types c)

/-- The types spliced in from the child: `[child.types[e] for e in projected_input]`, an
internal-consistency error when entries are to be spliced in and there is not exactly one
child. -/
def LogicalGet.spec_input_types (n : LogicalGet) : Except Error (List LogicalType) :=
  if n.projected_input = [] then
    .ok []
  else
    match n.children with
    | [child] => n.projected_input.mapM (vector_at child.types)
    | _ => .error (Error.InternalException project_input_message)

/-- The bindings spliced in from the child: `[child.bindings[e] for e in projected_input]`,
with the same error. -/
def LogicalGet.spec_input_bindings (n : LogicalGet) : Except Error (List ColumnBinding) :=
  if n.projected_input = [] then
    .ok []
  else
    match n.children with
    | [child] => n.projected_input.mapM (vector_at child.bindings)
    | _ => .error (Error.InternalException project_input_message)

/-- The own bindings of a node with non-empty `column_ids`. -/
def LogicalGet.spec_own_bindings (n : LogicalGet) : List ColumnBinding :=
  if n.projection_ids = [] then
    (List.range n.column_ids.length).map (ColumnBinding.mk n.table_index)
  else
    n.projection_ids.map (ColumnBinding.mk n.table_index)

/-! ## Cardinality -/

/-- `LogicalGet::EstimateCardinality` (lines 111-123). -/
def LogicalGet.EstimateCardinality (n : LogicalGet) (context : ClientContext) : Nat :=
  if n.has_estimated_cardinality then
    n.estimated_cardinality
  else
    match n.function.cardinality with
    | some cardinality =>
      match cardinality context n.bind_data with
      | some node_stats =>
        if node_stats.has_estimated_cardinality then node_stats.estimated_cardinality else 1
      | none => 1
    | none => 1



/-! ## Persistence: the positional encoding -/

/-- Modelled from the spec: what a decoder is handed besides the stream, the "live execution
context" and the "source registry" that maps a source identity to its descriptor. -/
structure LogicalDeserializationState where
  context : ClientContext
  catalog : String → Option TableFunction

/-- The error of a read that does not find the field it requires. -/
def missing_field : Error :=
  Error.SerializationException "Attempting to read mandatory field, but field is missing"

/-- Modelled from the spec: `FieldReader::ReadRequired<idx_t>`, absent from the source file. -/
def FieldReader.ReadRequired_idx : List Field → Except Error (Nat × List Field)
  | .idx v :: rest => .ok (v, rest)
  | _ => .error missing_field

/-- Modelled from the spec: `FieldReader::ReadRequired<bool>`, absent from the source file. -/
def FieldReader.ReadRequired_bool : List Field → Except Error (Bool × List Field)
  | .bool b :: rest => .ok (b, rest)
  | _ => .error missing_field

/-- Modelled from the spec: `FieldReader::ReadRequired<string>`, absent from the source file. -/
def FieldReader.ReadRequired_string : List Field → Except Error (String × List Field)
  | .str s :: rest => .ok (s, rest)
  | _ => .error missing_field

/-- Modelled from the spec: `FieldReader::ReadRequiredSerializableList<LogicalType>`, absent from
the source file. -/
def FieldReader.ReadRequiredSerializableList_type :
    List Field → Except Error (List LogicalType × List Field)
  | .types ts :: rest => .ok (ts, rest)
  | _ => .error missing_field

/-- Modelled from the spec: `FieldReader::ReadRequiredSerializableList<Value>`, absent from the
source file. -/
def FieldReader.ReadRequiredSerializableList_value :
    List Field → Except Error (List Value × List Field)
  | .values vs :: rest => .ok (vs, rest)
  | _ => .error missing_field

/-- Modelled from the spec: `FieldReader::ReadRequiredSerializable<Value>`, absent from the
source file. -/
def FieldReader.ReadRequiredSerializable_value : List Field → Except Error (Value × List Field)
  | .value v :: rest => .ok (v, rest)
  | _ => .error missing_field

/-- Modelled from the spec: `FieldReader::ReadRequiredList<string>`, absent from the source
file. -/
def FieldReader.ReadRequiredList_string : List Field → Except Error (List String × List Field)
  | .strings ss :: rest => .ok (ss, rest)
  | _ => .error missing_field

/-- Modelled from the spec: `FieldReader::ReadRequiredList<column_t>`, absent from the source
file. -/
def FieldReader.ReadRequiredList_column : List Field → Except Error (List Nat × List Field)
  | .columns cs :: rest => .ok (cs, rest)
  | _ => .error missing_field

/-- Modelled from the spec: `FieldReader::ReadRequiredSerializable<TableFilterSet>`, absent from
the source file. -/
def FieldReader.ReadRequiredSerializable_filters :
    List Field → Except Error (TableFilterSet × List Field)
  | .filters fs :: rest => .ok (fs, rest)
  | _ => .error missing_field

/-- Modelled from the spec: `FieldReader::ReadList<column_t>`, absent from the source file: the
read of a field that may be missing at the end of the record, in which case the list stays
empty. -/
def FieldReader.ReadList_column : List Field → Except Error (List Nat × List Field)
  | [] => .ok ([], [])
  | .columns cs :: rest => .ok (cs, rest)
  | _ => .error missing_field

/-- The call `named_parameters.insert(pair)` on the map of named parameters, whose keys compare
without regard to case: a pair whose key is present is not inserted. The map is kept as the
list of its pairs in insertion order. -/
def named_parameter_map_insert (m : List (String × Value)) (pair : String × Value) :
    List (String × Value) :=
  if m.any (fun p => p.1.toLower == pair.1.toLower) then m else m ++ [pair]

/-- Modelled from the spec: `FunctionSerializer::SerializeBase`, absent from the source file:
"the source identity plus, if the source supports a direct codec, its custom-serialized bind
state", preceded by the flag that says whether the codec was used. -/
def FunctionSerializer.SerializeBase (function : TableFunction)
    (bind_info : Option FunctionData) : List Field :=
  match function.serialize with
  | some serialize => [Field.str function.name, Field.bool true] ++ serialize bind_info
  | none => [Field.str function.name, Field.bool false]

/-- Modelled from the spec: `FunctionSerializer::DeserializeBaseInternal`, absent from the source
file: looks the source up by its identity, reads the flag and, when it is set, lets "the
source's own deserializer" rebuild the bind state. Returns the function, the bind state, the
flag and the rest of the stream. -/
def FunctionSerializer.DeserializeBaseInternal (state : LogicalDeserializationState)
    (reader : List Field) :
    Except Error (TableFunction × Option FunctionData × Bool × List Field) := do
  let (name, reader) ← FieldReader.ReadRequired_string reader
  match state.catalog name with
  | none => throw (Error.CatalogException name)
  | some function =>
    let (has_deserialize, reader) ← FieldReader.ReadRequired_bool reader
    if has_deserialize then
      match function.deserialize with
      | none =>
        throw (Error.SerializationException
          ("Function requires deserialization but no deserialization function for " ++
            function.name))
      | some deserialize =>
        let (bind_info, reader) ← deserialize reader
        pure (function, bind_info, has_deserialize, reader)
    else
      pure (function, none, has_deserialize, reader)

/-- The message of the first reconstruction-mismatch error. -/
def different_types_message : String :=
  "Table function deserialization failure - bind returned different return types than were serialized"

/-- The message of the second reconstruction-mismatch error. -/
def different_names_message : String :=
  "Table function deserialization failure - bind returned different returned names than were serialized"

/-- `LogicalGet::Serialize` (lines 125-147): the fields in the order they are written. -/
def LogicalGet.Serialize (n : LogicalGet) : List Field :=
  [Field.idx n.table_index, Field.types n.returned_types, Field.strings n.names,
    Field.columns n.column_ids, Field.columns n.projection_ids, Field.filters n.table_filters]
  ++ FunctionSerializer.SerializeBase n.function n.bind_data
  ++ (if n.function.serialize.isNone then
        [Field.values n.parameters, Field.idx n.named_parameters.length]
        ++ n.named_parameters.foldl
            (fun written pair => written ++ [Field.str pair.1, Field.value pair.2]) []
        ++ [Field.types n.input_table_types, Field.strings n.input_table_names]
      else [])
  ++ [Field.columns n.projected_input]

/-- The loop of lines 171-176 of `LogicalGet::Deserialize`: `count` more pairs are read and
inserted into the map. -/
def LogicalGet.Deserialize_named_parameters :
    Nat → List (String × Value) → List Field → Except Error (List (String × Value) × List Field)
  | 0, named_parameters, reader => .ok (named_parameters, reader)
  | count + 1, named_parameters, reader => do
    let (first, reader) ← FieldReader.ReadRequired_string reader
    let (second, reader) ← FieldReader.ReadRequiredSerializable_value reader
    LogicalGet.Deserialize_named_parameters count
      (named_parameter_map_insert named_parameters (first, second)) reader

/-- `LogicalGet::Deserialize` (lines 149-209). The call `function.bind` of line 185 is made
without a test of the pointer. -/
def LogicalGet.Deserialize (state : LogicalDeserializationState) (reader : List Field) :
    Except Error LogicalGet := do
  let (table_index, reader) ← FieldReader.ReadRequired_idx reader
  let (returned_types, reader) ← FieldReader.ReadRequiredSerializableList_type reader
  let (returned_names, reader) ← FieldReader.ReadRequiredList_string reader
  let (column_ids, reader) ← FieldReader.ReadRequiredList_column reader
  let (projection_ids, reader) ← FieldReader.ReadRequiredList_column reader
  let (table_filters, reader) ← FieldReader.ReadRequiredSerializable_filters reader
  let (function, bind_data, has_deserialize, reader) ←
    FunctionSerializer.DeserializeBaseInternal state reader
  let (bind_data, parameters, named_parameters, input_table_types, input_table_names, reader) ←
    if !has_deserialize then do
      let (parameters, reader) ← FieldReader.ReadRequiredSerializableList_value reader
      let (named_parameters_size, reader) ← FieldReader.ReadRequired_idx reader
      let (named_parameters, reader) ←
        LogicalGet.Deserialize_named_parameters named_parameters_size [] reader
      let (input_table_types, reader) ← FieldReader.ReadRequiredSerializableList_type reader
      let (input_table_names, reader) ← FieldReader.ReadRequiredList_string reader
      let input : TableFunctionBindInput :=
        { inputs := parameters, named_parameters := named_parameters,
          input_table_types := input_table_types, input_table_names := input_table_names,
          info := function.function_info }
      match function.bind with
      | none => throw Error.NullFunctionCall
      | some bind =>
        let (bind_data, bind_return_types, bind_names) ← bind state.context input
        if returned_types ≠ bind_return_types then
          throw (Error.SerializationException different_types_message)
        else if returned_names.length ≠ bind_names.length then
          throw (Error.SerializationException different_names_message)
        else
          pure (bind_data, parameters, named_parameters, input_table_types, input_table_names,
            reader)
    else
      pure (bind_data, [], [], [], [], reader)
  let (projected_input, _) ← FieldReader.ReadList_column reader
  let result := LogicalGet.create table_index function bind_data returned_types returned_names
  pure { result with
    column_ids := column_ids, projection_ids := projection_ids, table_filters := table_filters,
    parameters := parameters, named_parameters := named_parameters,
    input_table_types := input_table_types, input_table_names := input_table_names,
    projected_input := projected_input }

/-! ## Persistence: the self-describing encoding -/

/-- The error of a read that does not find the property it asks for. -/
def missing_property (tag : String) : Error :=
  Error.SerializationException ("Expected property " ++ tag)

/-- Modelled from the spec: `FormatDeserializer::ReadProperty` at type `idx_t`, absent from the
source file. -/
def FormatDeserializer.ReadProperty_idx (tag : String) :
    List Token → Except Error (Nat × List Token)
  | .property t (.idx v) :: rest => if t = tag then .ok (v, rest) else .error (missing_property tag)
  | _ => .error (missing_property tag)

/-- Modelled from the spec: `FormatDeserializer::ReadProperty` at type `bool`, absent from the
source file. -/
def FormatDeserializer.ReadProperty_bool (tag : String) :
    List Token → Except Error (Bool × List Token)
  | .property t (.bool b) :: rest => if t = tag then .ok (b, rest) else .error (missing_property tag)
  | _ => .error (missing_property tag)

/-- Modelled from the spec: `FormatDeserializer::ReadProperty` at type `string`, absent from the
source file. -/
def FormatDeserializer.ReadProperty_string (tag : String) :
    List Token → Except Error (String × List Token)
  | .property t (.str v) :: rest => if t = tag then .ok (v, rest) else .error (missing_property tag)
  | _ => .error (missing_property tag)

/-- Modelled from the spec: `FormatDeserializer::ReadProperty` at type `vector<LogicalType>`,
absent from the source file. -/
def FormatDeserializer.ReadProperty_types (tag : String) :
    List Token → Except Error (List LogicalType × List Token)
  | .property t (.types v) :: rest =>
    if t = tag then .ok (v, rest) else .error (missing_property tag)
  | _ => .error (missing_property tag)

/-- Modelled from the spec: `FormatDeserializer::ReadProperty` at type `vector<string>`, absent
from the source file. -/
def FormatDeserializer.ReadProperty_strings (tag : String) :
    List Token → Except Error (List String × List Token)
  | .property t (.strings v) :: rest =>
    if t = tag then .ok (v, rest) else .error (missing_property tag)
  | _ => .error (missing_property tag)

/-- Modelled from the spec: `FormatDeserializer::ReadProperty` at type `vector<column_t>`, absent
from the source file. -/
def FormatDeserializer.ReadProperty_columns (tag : String) :
    List Token → Except Error (List Nat × List Token)
  | .property t (.columns v) :: rest =>
    if t = tag then .ok (v, rest) else .error (missing_property tag)
  | _ => .error (missing_property tag)

/-- Modelled from the spec: `FormatDeserializer::ReadProperty` at type `TableFilterSet`, absent
from the source file. -/
def FormatDeserializer.ReadProperty_filters (tag : String) :
    List Token → Except Error (TableFilterSet × List Token)
  | .property t (.filters v) :: rest =>
    if t = tag then .ok (v, rest) else .error (missing_property tag)
  | _ => .error (missing_property tag)

/-- Modelled from the spec: `FormatDeserializer::ReadProperty` at type `vector<Value>`, absent
from the source file. -/
def FormatDeserializer.ReadProperty_values (tag : String) :
    List Token → Except Error (List Value × List Token)
  | .property t (.values v) :: rest =>
    if t = tag then .ok (v, rest) else .error (missing_property tag)
  | _ => .error (missing_property tag)

/-- Modelled from the spec: `FormatDeserializer::ReadProperty` at type `named_parameter_map_t`,
absent from the source file. -/
def FormatDeserializer.ReadProperty_named_values (tag : String) :
    List Token → Except Error (List (String × Value) × List Token)
  | .property t (.named_values v) :: rest =>
    if t = tag then .ok (v, rest) else .error (missing_property tag)
  | _ => .error (missing_property tag)

/-- Modelled from the spec: the enumerator `LogicalOperatorType::LOGICAL_GET`, declared outside
the source file. -/
def LogicalOperatorType.LOGICAL_GET : Nat := 25

/-- Modelled from the spec: `LogicalOperator::FormatSerialize`, the base-class part of the
record, absent from the source file: the kind of the node and its children. The caller that
picks the decoder by the kind of the node reads these two properties back. -/
def LogicalOperator.FormatSerialize (n : LogicalGet) : List Token :=
  [Token.property "type" (.operator_type LogicalOperatorType.LOGICAL_GET),
    Token.property "children" (.children n.children)]

/-- Modelled from the spec: `FunctionSerializer::FormatSerialize`, absent from the source file:
"the source identity plus, if the source supports a direct codec, its custom-serialized bind
state", the latter as an object of its own, preceded by the flag that says whether the codec
was used. -/
def FunctionSerializer.FormatSerialize (function : TableFunction)
    (bind_info : Option FunctionData) : List Token :=
  match function.format_serialize with
  | some format_serialize =>
    [Token.property "name" (.str function.name), Token.property "has_serialize" (.bool true),
      Token.begin_object "function_data"]
    ++ format_serialize bind_info ++ [Token.end_object]
  | none =>
    [Token.property "name" (.str function.name), Token.property "has_serialize" (.bool false)]

/-- Modelled from the spec: `FunctionSerializer::FormatDeserializeBase`, absent from the source
file: looks the source up by its identity and reads the flag. -/
def FunctionSerializer.FormatDeserializeBase (state : LogicalDeserializationState)
    (deserializer : List Token) : Except Error (TableFunction × Bool × List Token) := do
  let (name, deserializer) ← FormatDeserializer.ReadProperty_string "name" deserializer
  match state.catalog name with
  | none => throw (Error.CatalogException name)
  | some function =>
    let (has_serialize, deserializer) ←
      FormatDeserializer.ReadProperty_bool "has_serialize" deserializer
    pure (function, has_serialize, deserializer)

/-- Modelled from the spec: `FunctionSerializer::FunctionDeserialize`, absent from the source
file: "the source's own deserializer reconstructs bind state directly from the stored
bytes/properties", which are the object written by `FunctionSerializer::FormatSerialize`. -/
def FunctionSerializer.FunctionDeserialize (deserializer : List Token)
    (function : TableFunction) : Except Error (Option FunctionData × List Token) :=
  match function.format_deserialize with
  | none =>
    .error (Error.SerializationException
      ("Function requires deserialization but no deserialization function for " ++
        function.name))
  | some format_deserialize =>
    match deserializer with
    | .begin_object "function_data" :: deserializer => do
      let (result, deserializer) ← format_deserialize deserializer
      match deserializer with
      | .end_object :: deserializer => pure (result, deserializer)
      | _ => throw (missing_property "function_data")
    | _ => .error (missing_property "function_data")

/-- The message of the unreconstructible-source error, with the name of the function between
double quotes. -/
def neither_message (name : String) : String :=
  "Table function " ++ String.singleton (Char.ofNat 34) ++ name ++
    String.singleton (Char.ofNat 34) ++ " has neither bind nor (de)serialize"

/-- `LogicalGet::FormatSerialize` (lines 211-229): the properties in the order they are
written. -/
def LogicalGet.FormatSerialize (n : LogicalGet) : List Token :=
  LogicalOperator.FormatSerialize n
  ++ [Token.property "table_index" (.idx n.table_index),
      Token.property "returned_types" (.types n.returned_types),
      Token.property "names" (.strings n.names),
      Token.property "column_ids" (.columns n.column_ids),
      Token.property "projection_ids" (.columns n.projection_ids),
      Token.property "table_filters" (.filters n.table_filters)]
  ++ FunctionSerializer.FormatSerialize n.function n.bind_data
  ++ (if n.function.format_serialize.isNone then
        [Token.property "parameters" (.values n.parameters),
          Token.property "named_parameters" (.named_values n.named_parameters),
          Token.property "input_table_types" (.types n.input_table_types),
          Token.property "input_table_names" (.strings n.input_table_names)]
      else [])
  ++ [Token.property "projected_input" (.columns n.projected_input)]

/-- `LogicalGet::FormatDeserialize` (lines 231-273), handed the record after its base-class
part. The node is built by the default constructor and filled member by member; the locals
`function` and `bind_data` are computed and are not stored in it. -/
def LogicalGet.FormatDeserialize (state : LogicalDeserializationState)
    (deserializer : List Token) : Except Error LogicalGet := do
  let result := LogicalGet.default
  let (table_index, deserializer) ←
    FormatDeserializer.ReadProperty_idx "table_index" deserializer
  let result := { result with table_index := table_index }
  let (returned_types, deserializer) ←
    FormatDeserializer.ReadProperty_types "returned_types" deserializer
  let result := { result with returned_types := returned_types }
  let (names, deserializer) ← FormatDeserializer.ReadProperty_strings "names" deserializer
  let result := { result with names := names }
  let (column_ids, deserializer) ←
    FormatDeserializer.ReadProperty_columns "column_ids" deserializer
  let result := { result with column_ids := column_ids }
  let (projection_ids, deserializer) ←
    FormatDeserializer.ReadProperty_columns "projection_ids" deserializer
  let result := { result with projection_ids := projection_ids }
  let (table_filters, deserializer) ←
    FormatDeserializer.ReadProperty_filters "table_filters" deserializer
  let result := { result with table_filters := table_filters }
  let (function, has_serialize, deserializer) ←
    FunctionSerializer.FormatDeserializeBase state deserializer
  let (result, _, deserializer) ←
    if !has_serialize then do
      let (parameters, deserializer) ←
        FormatDeserializer.ReadProperty_values "parameters" deserializer
      let result := { result with parameters := parameters }
      let (named_parameters, deserializer) ←
        FormatDeserializer.ReadProperty_named_values "named_parameters" deserializer
      let result := { result with named_parameters := named_parameters }
      let (input_table_types, deserializer) ←
        FormatDeserializer.ReadProperty_types "input_table_types" deserializer
      let result := { result with input_table_types := input_table_types }
      let (input_table_names, deserializer) ←
        FormatDeserializer.ReadProperty_strings "input_table_names" deserializer
      let result := { result with input_table_names := input_table_names }
      let input : TableFunctionBindInput :=
        { inputs := result.parameters, named_parameters := result.named_parameters,
          input_table_types := result.input_table_types,
          input_table_names := result.input_table_names, info := function.function_info }
      match function.bind with
      | none => throw (Error.InternalException (neither_message function.name))
      | some bind =>
        let (bind_data, bind_return_types, bind_names) ← bind state.context input
        if result.returned_types ≠ bind_return_types then
          throw (Error.SerializationException different_types_message)
        else if result.names.length ≠ bind_names.length then
          throw (Error.SerializationException different_names_message)
        else
          pure (result, bind_data, deserializer)
    else do
      let (bind_data, deserializer) ←
        FunctionSerializer.FunctionDeserialize deserializer function
      pure (result, bind_data, deserializer)
  let (projected_input, _) ←
    FormatDeserializer.ReadProperty_columns "projected_input" deserializer
  pure { result with projected_input := projected_input }

/-! ## Diagnostics -/

/-- Modelled from the spec: the filter's "own `to_string(column_name)` formatter"
(`TableFilter::ToString`), declared outside the source file: the column name followed by the
text of the predicate. -/
def TableFilter.ToString (filter : TableFilter) (column_name : String) : String :=
  column_name ++ filter.cond

/-- The text added to `result` by one iteration of the loop of lines 32-39 of
`LogicalGet::ParamsToString`. -/
def LogicalGet.ParamsToString_filter (names : List String) (result : String)
    (kv : Nat × TableFilter) : String :=
  let column_index := kv.1
  let filter := kv.2
  let result :=
    if h : column_index < names.length then
      result ++ filter.ToString names[column_index]
    else result
  result ++ "\n"

/-- `LogicalGet::ParamsToString` (lines 30-48). -/
def LogicalGet.ParamsToString (n : LogicalGet) : String :=
  let result := ""
  let result := n.table_filters.filters.foldl (LogicalGet.ParamsToString_filter n.names) result
  let result :=
    if n.file_filters ≠ "" then
      (result ++ "\n[INFOSEPARATOR]\n") ++ ("File Filters: " ++ n.file_filters)
    else result
  match n.function.to_string with
  | none => result
  | some to_string => result ++ "\n" ++ to_string n.bind_data

/-- The concatenation of a list of texts. -/
def concat_texts : List String → String
  | [] => ""
  | s :: ss => s ++ concat_texts ss

/-- The line of one filter: the filter formatted against the declared name at its key, when the
key is below the number of declared names, and the line break. -/
def spec_filter_line (names : List String) (kv : Nat × TableFilter) : String :=
  (if h : kv.1 < names.length then kv.2.ToString names[kv.1] else "") ++ "\n"

/-- The section of the file filters: absent when the text is empty. -/
def LogicalGet.spec_file_section (n : LogicalGet) : String :=
  if n.file_filters = "" then ""
  else "\n[INFOSEPARATOR]\n" ++ ("File Filters: " ++ n.file_filters)

/-- The section of the source: absent when the source has no formatter. -/
def LogicalGet.spec_source_section (n : LogicalGet) : String :=
  match n.function.to_string with
  | none => ""
  | some to_string => "\n" ++ to_string n.bind_data

/-! ## Example nodes -/

/-- A scan of a source with three declared columns that reads columns 2 and 0. -/
def example_scan : LogicalGet :=
  { LogicalGet.create 7 TableFunction.empty none [⟨1⟩, ⟨2⟩, ⟨3⟩] ["a", "b", "c"] with
    column_ids := [2, 0] }

/-- The scan `example_scan` projecting out its second read column only. -/
def example_projected : LogicalGet :=
  { example_scan with projection_ids := [1] }

/-- A child operator with three output columns. -/
def example_child : LogicalOperator :=
  { types := [⟨10⟩, ⟨11⟩, ⟨12⟩], bindings := [⟨5, 0⟩, ⟨5, 1⟩, ⟨5, 2⟩] }

/-- A table-in-out node: `example_scan` over `example_child`, splicing in the child columns
2 and 0. -/
def example_in_out : LogicalGet :=
  { example_scan with children := [example_child], projected_input := [2, 0] }

/-- A node on which no column has been selected yet. -/
def example_unresolved : LogicalGet :=
  LogicalGet.create 7 TableFunction.empty none [⟨1⟩, ⟨2⟩, ⟨3⟩] ["a", "b", "c"]

/-- A table-in-out node on which no column has been selected yet. -/
def example_unresolved_in_out : LogicalGet :=
  { example_unresolved with children := [example_child], projected_input := [0] }

/-- A node with a child column to splice in and no child. -/
def example_orphan : LogicalGet :=
  { example_unresolved with projected_input := [0] }

/-- A source whose estimator always answers with an estimate of 1000 rows. -/
def example_estimating_function : TableFunction :=
  { TableFunction.empty with
    name := "estimating_scan",
    cardinality := some (fun _ _ => some ⟨true, 1000, false, 0⟩) }

/-- A node over `example_estimating_function` with no pinned estimate. -/
def example_estimated : LogicalGet :=
  { example_scan with function := example_estimating_function }

/-- The node `example_estimated` with the estimate 42 pinned on it. -/
def example_pinned : LogicalGet :=
  { example_estimated with has_estimated_cardinality := true, estimated_cardinality := 42 }

/-- What a round trip through the persisted form has to preserve: the persisted schema members
and, given the same children, the output of the schema resolution from an empty type list. -/
def LogicalGet.same_persisted_schema (r n : LogicalGet) : Prop :=
  r.table_index = n.table_index ∧ r.column_ids = n.column_ids ∧
  r.projection_ids = n.projection_ids ∧ r.table_filters = n.table_filters ∧
  r.returned_types = n.returned_types ∧ r.names = n.names ∧
  r.projected_input = n.projected_input ∧
  LogicalGet.GetColumnBindings { r with children := n.children } = n.GetColumnBindings ∧
  (LogicalGet.ResolveTypes { r with children := n.children, types := [] }).map LogicalGet.types
    = (LogicalGet.ResolveTypes { n with types := [] }).map LogicalGet.types

/-- A source with a direct codec in both encodings: the bind state is written as one field,
respectively one property, holding its payload. The source has no bind operation. -/
def example_codec_function : TableFunction :=
  { TableFunction.empty with
    name := "codec_scan",
    serialize := some (fun bind_info =>
      match bind_info with
      | some d => [Field.data d.payload]
      | none => []),
    deserialize := some (fun reader =>
      match reader with
      | .data payload :: rest => .ok (some ⟨payload⟩, rest)
      | rest => .ok (none, rest)),
    format_serialize := some (fun bind_info =>
      match bind_info with
      | some d => [Token.property "payload" (.data d.payload)]
      | none => []),
    format_deserialize := some (fun deserializer =>
      match deserializer with
      | .property _ (.data payload) :: rest => .ok (some ⟨payload⟩, rest)
      | rest => .ok (none, rest)) }

/-- A source without a codec whose bind operation returns the three declared types of the
example nodes under the names x, y, z. -/
def example_rebind_function : TableFunction :=
  { TableFunction.empty with
    name := "rebind_scan",
    bind := some (fun _ input =>
      .ok (some ⟨[input.inputs.length]⟩, [⟨1⟩, ⟨2⟩, ⟨3⟩], ["x", "y", "z"])) }

/-- The source `example_rebind_function` after a change of its schema: bind returns two types. -/
def example_mutated_function : TableFunction :=
  { example_rebind_function with
    bind := some (fun _ input => .ok (some ⟨[input.inputs.length]⟩, [⟨1⟩, ⟨2⟩], ["x", "y"])) }

/-- A source with neither a codec nor a bind operation. -/
def example_bare_function : TableFunction :=
  { TableFunction.empty with name := "bare_scan" }

/-- The decoding state whose registry knows the one function `function`. -/
def example_state (function : TableFunction) : LogicalDeserializationState :=
  { context := ⟨0⟩,
    catalog := fun name => if name = function.name then some function else none }

/-- A scan over `example_codec_function` with a bind state, a filter and a projection. -/
def example_codec_scan : LogicalGet :=
  { example_projected with
    function := example_codec_function, bind_data := some ⟨[4, 2]⟩,
    table_filters := ⟨[(0, ⟨">5"⟩)]⟩ }

/-- A scan over `example_rebind_function`, with the arguments of its bind call. -/
def example_rebind_scan : LogicalGet :=
  { example_projected with
    function := example_rebind_function, bind_data := some ⟨[1]⟩,
    parameters := [⟨9⟩], named_parameters := [("header", ⟨1⟩)] }

/-- A scan over `example_bare_function`. -/
def example_bare_scan : LogicalGet :=
  { example_projected with function := example_bare_function }

/-- A source with a formatter that prints the payload length of the bind state. -/
def example_printing_function : TableFunction :=
  { TableFunction.empty with
    name := "parquet_scan",
    to_string := some (fun bind_info =>
      match bind_info with
      | some d => "state of " ++ toString d.payload.length
      | none => "no state") }

/-- The node of the diagnostic example of the specification: filters on the columns a and b
and the file filter `*.parquet`, over a source without a formatter. -/
def example_filtered : LogicalGet :=
  { example_unresolved with
    column_ids := [0, 1], table_filters := ⟨[(0, ⟨">5"⟩), (1, ⟨"=x"⟩)]⟩,
    file_filters := "*.parquet" }

/-- The node `example_filtered` over a source with a formatter. -/
def example_filtered_printing : LogicalGet :=
  { example_filtered with function := example_printing_function, bind_data := some ⟨[4, 2]⟩ }

/-- The scan `example_scan`, which reads the declared columns 2 and 0, with one filter under
the key 0. -/
def example_filtered_scan : LogicalGet :=
  { example_scan with table_filters := ⟨[(0, ⟨">5"⟩)]⟩ }

/-- The scan `example_scan` with one filter under the key 7, past its three declared names. -/
def example_stray_filter : LogicalGet :=
  { example_scan with table_filters := ⟨[(7, ⟨">5"⟩)]⟩ }

/-- The node `example_pinned` with the estimate 0 pinned on it. -/
def example_pinned_zero : LogicalGet :=
  { example_estimated with has_estimated_cardinality := true, estimated_cardinality := 0 }

/-- A scan whose projection refers to a fifth read column although it reads one column,
over the source with a direct codec. -/
def example_bad_projection : LogicalGet :=
  { example_codec_scan with column_ids := [0], projection_ids := [5] }

/-! ## Loops as comprehensions -/

theorem foldlM_push {α β : Type} (g : α → Except Error β) (l : List α) (init : List β) :
    l.foldlM (fun acc x => do let y ← g x; pure (acc ++ [y])) init
      = (l.mapM g).map (fun ys => init ++ ys) := by
  induction l generalizing init with
  | nil =>
    rw [List.foldlM_nil, List.mapM_nil]
    simp [Except.map, pure, Except.pure]
  | cons x xs ih =>
    rw [List.foldlM_cons, List.mapM_cons]
    cases hx : g x with
    | error e => simp [bind, Except.bind, Except.map]
    | ok y =>
      simp only [bind, Except.bind, pure, Except.pure]
      have := ih (init ++ [y])
      simp only [bind, Except.bind, pure, Except.pure] at this
      rw [this]
      cases List.mapM g xs <;> simp [Except.map]

theorem foldl_push {α β : Type} (f : α → β) (l : List α) (init : List β) :
    l.foldl (fun acc x => acc ++ [f x]) init = init ++ l.map f := by
  induction l generalizing init with
  | nil => simp
  | cons x xs ih => simp [ih]

theorem push_column_type_eq (rt types : List LogicalType) (index : Nat) :
    LogicalGet.push_column_type rt types index
      = (do let y ← column_type rt index; pure (types ++ [y])) := by
  unfold LogicalGet.push_column_type column_type
  split <;> rfl

theorem isEmpty_eq_decide {α : Type} (l : List α) : l.isEmpty = true ↔ l = [] := by
  cases l <;> simp

theorem own_loop_eq (rt : List LogicalType) (cids : List Nat) (init : List LogicalType) :
    cids.foldlM (fun types index => LogicalGet.push_column_type rt types index) init
      = (cids.mapM (column_type rt)).map (fun ys => init ++ ys) := by
  simp only [push_column_type_eq]
  exact foldlM_push _ _ _

theorem projected_loop_eq (rt : List LogicalType) (cids pids : List Nat)
    (init : List LogicalType) :
    pids.foldlM
        (fun types proj_index => do
          let index ← vector_at cids proj_index
          LogicalGet.push_column_type rt types index)
        init
      = (pids.mapM (fun p => do
          let c ← vector_at cids p
          column_type rt c)).map (fun ys => init ++ ys) := by
  simp only [push_column_type_eq, ← bind_assoc]
  exact foldlM_push _ _ _

theorem input_loop_eq (child : LogicalOperator) (es : List Nat) (init : List LogicalType) :
    es.foldlM
        (fun types entry => do
          let child ← vector_at [child] 0
          let t ← vector_at child.types entry
          pure (types ++ [t]))
        init
      = (es.mapM (vector_at child.types)).map (fun ys => init ++ ys) := by
  have h : vector_at [child] 0 = Except.ok child := rfl
  simp only [h]
  exact foldlM_push _ _ _

theorem binding_loop_eq (bs : List ColumnBinding) (es : List Nat) (init : List ColumnBinding) :
    es.foldlM
        (fun result entry => do
          let b ← vector_at bs entry
          pure (result ++ [b]))
        init
      = (es.mapM (vector_at bs)).map (fun ys => init ++ ys) :=
  foldlM_push _ _ _

theorem ResolveTypes_eq (n : LogicalGet) :
    n.ResolveTypes = (do
      let own ← n.spec_own_types
      let inp ← n.spec_input_types
      pure { n with column_ids := n.spec_column_ids, types := n.types ++ own ++ inp }) := by
  have hc : (if n.column_ids.isEmpty = true then n.column_ids ++ [COLUMN_IDENTIFIER_ROW_ID]
      else n.column_ids) = n.spec_column_ids := by
    unfold LogicalGet.spec_column_ids
    cases n.column_ids <;> simp
  unfold LogicalGet.ResolveTypes
  simp only [hc, own_loop_eq, projected_loop_eq]
  unfold LogicalGet.spec_own_types LogicalGet.spec_input_types
  generalize List.mapM (column_type n.returned_types) n.spec_column_ids = a
  generalize List.mapM (fun p => do
      let c ← vector_at n.spec_column_ids p
      column_type n.returned_types c) n.projection_ids = b
  by_cases hi : n.projected_input = []
  · by_cases hp : n.projection_ids = [] <;> cases a <;> cases b <;>
      simp [hp, hi, isEmpty_eq_decide, bind, Except.bind, Except.map, pure, Except.pure]
  · match hch : n.children with
    | [child] =>
      simp only [input_loop_eq]
      generalize List.mapM (vector_at child.types) n.projected_input = c
      by_cases hp : n.projection_ids = [] <;> cases a <;> cases b <;> cases c <;>
        simp [hp, hi, isEmpty_eq_decide, bind, Except.bind, Except.map, pure, Except.pure]
    | [] =>
      by_cases hp : n.projection_ids = [] <;> cases a <;> cases b <;>
        simp [hp, hi, isEmpty_eq_decide, bind, Except.bind, Except.map, pure, Except.pure,
          throw, throwThe, MonadExceptOf.throw]
    | _ :: _ :: _ =>
      by_cases hp : n.projection_ids = [] <;> cases a <;> cases b <;>
        simp [hp, hi, isEmpty_eq_decide, bind, Except.bind, Except.map, pure, Except.pure,
          throw, throwThe, MonadExceptOf.throw]

theorem GetColumnBindings_eq (n : LogicalGet) :
    n.GetColumnBindings =
      if n.column_ids = [] then .ok [ColumnBinding.mk n.table_index 0]
      else n.spec_input_bindings.map (fun inp => n.spec_own_bindings ++ inp) := by
  unfold LogicalGet.GetColumnBindings LogicalGet.spec_input_bindings LogicalGet.spec_own_bindings
  by_cases hc : n.column_ids = []
  · simp [hc]
  · simp only [hc, isEmpty_eq_decide, if_false, foldl_push, List.nil_append]
    by_cases hi : n.projected_input = []
    · by_cases hp : n.projection_ids = [] <;>
        simp [hp, hi, bind, Except.bind, Except.map, pure, Except.pure]
    · match hch : n.children with
      | [child] =>
        have h : vector_at [child] 0 = Except.ok child := rfl
        simp only [binding_loop_eq]
        simp only [h, bind, Except.bind]
        generalize List.mapM (vector_at child.bindings) n.projected_input = c
        by_cases hp : n.projection_ids = [] <;> cases c <;>
          simp [hp, hi, Except.map, pure, Except.pure]
      | [] =>
        by_cases hp : n.projection_ids = [] <;>
          simp [hp, hi, bind, Except.bind, Except.map, pure, Except.pure,
            throw, throwThe, MonadExceptOf.throw]
      | _ :: _ :: _ =>
        by_cases hp : n.projection_ids = [] <;>
          simp [hp, hi, bind, Except.bind, Except.map, pure, Except.pure,
            throw, throwThe, MonadExceptOf.throw]

theorem ResolveTypes_ok (n n1 : LogicalGet) (h : n.ResolveTypes = .ok n1) :
    ∃ own inp, n.spec_own_types = .ok own ∧ n.spec_input_types = .ok inp ∧
      n1 = { n with column_ids := n.spec_column_ids, types := n.types ++ own ++ inp } := by
  rw [ResolveTypes_eq] at h
  cases ho : n.spec_own_types with
  | error e => simp [ho, bind, Except.bind] at h
  | ok own =>
    cases hi : n.spec_input_types with
    | error e => simp [ho, hi, bind, Except.bind] at h
    | ok inp =>
      simp only [ho, hi, bind, Except.bind, pure, Except.pure, Except.ok.injEq] at h
      exact ⟨own, inp, rfl, rfl, h.symm⟩

theorem spec_column_ids_ne_nil (n : LogicalGet) : n.spec_column_ids ≠ [] := by
  unfold LogicalGet.spec_column_ids
  split
  · simp
  · assumption

theorem spec_column_ids_of_ne (m : LogicalGet) (h : m.column_ids ≠ []) :
    m.spec_column_ids = m.column_ids := by
  simp [LogicalGet.spec_column_ids, h]

theorem spec_own_types_congr (m n : LogicalGet) (h1 : m.spec_column_ids = n.spec_column_ids)
    (h2 : m.projection_ids = n.projection_ids) (h3 : m.returned_types = n.returned_types) :
    m.spec_own_types = n.spec_own_types := by
  unfold LogicalGet.spec_own_types
  rw [h1, h2, h3]

theorem spec_input_types_congr (m n : LogicalGet) (h1 : m.projected_input = n.projected_input)
    (h2 : m.children = n.children) : m.spec_input_types = n.spec_input_types := by
  unfold LogicalGet.spec_input_types
  rw [h1, h2]

theorem ResolveTypes_of (m n : LogicalGet) (own inp : List LogicalType)
    (ho : n.spec_own_types = .ok own) (hi : n.spec_input_types = .ok inp)
    (h1 : m.spec_column_ids = n.spec_column_ids) (h2 : m.projection_ids = n.projection_ids)
    (h3 : m.returned_types = n.returned_types) (h4 : m.projected_input = n.projected_input)
    (h5 : m.children = n.children) :
    m.ResolveTypes
      = .ok { m with column_ids := n.spec_column_ids, types := m.types ++ own ++ inp } := by
  rw [ResolveTypes_eq, spec_own_types_congr m n h1 h2 h3, spec_input_types_congr m n h4 h5,
    ho, hi, h1]
  rfl

theorem mapM_vector_at {α : Type} (v : List α) (l : List Nat) (h : ∀ e ∈ l, e < v.length)
    (d : α) : l.mapM (vector_at v) = .ok (l.map (fun e => v.getD e d)) := by
  induction l with
  | nil => rfl
  | cons e es ih =>
    have he : e < v.length := h e (List.mem_cons_self e es)
    have hv : vector_at v e = .ok (v.getD e d) := by
      simp [vector_at, List.getD, List.getElem?_eq_getElem he]
    rw [List.mapM_cons, hv, ih (fun x hx => h x (List.mem_cons_of_mem e hx))]
    rfl

theorem spec_input_types_one (n : LogicalGet) (child : LogicalOperator)
    (hch : n.children = [child]) :
    n.spec_input_types = n.projected_input.mapM (vector_at child.types) := by
  unfold LogicalGet.spec_input_types
  rw [hch]
  split
  · next h => rw [h]; rfl
  · rfl

theorem spec_input_bindings_one (n : LogicalGet) (child : LogicalOperator)
    (hch : n.children = [child]) :
    n.spec_input_bindings = n.projected_input.mapM (vector_at child.bindings) := by
  unfold LogicalGet.spec_input_bindings
  rw [hch]
  split
  · next h => rw [h]; rfl
  · rfl

theorem vector_at_error {α : Type} (v : List α) (i : Nat) (e : Error)
    (h : vector_at v i = .error e) : e = Error.IndexOutOfRange := by
  unfold vector_at at h
  split at h
  · cases h
  · exact (Except.error.inj h).symm

theorem column_type_error (rt : List LogicalType) (c : Nat) (e : Error)
    (h : column_type rt c = .error e) : e = Error.IndexOutOfRange := by
  unfold column_type at h
  split at h
  · cases h
  · exact vector_at_error _ _ _ h

theorem mapM_error {α β : Type} (f : α → Except Error β)
    (hf : ∀ x e, f x = .error e → e = Error.IndexOutOfRange) (l : List α) (e : Error)
    (h : l.mapM f = .error e) : e = Error.IndexOutOfRange := by
  induction l generalizing e with
  | nil => cases h
  | cons x xs ih =>
    rw [List.mapM_cons] at h
    cases hx : f x with
    | error e1 =>
      rw [hx] at h
      exact (Except.error.inj h) ▸ hf x e1 hx
    | ok y =>
      rw [hx] at h
      cases hxs : List.mapM f xs with
      | error e2 =>
        rw [hxs] at h
        exact (Except.error.inj h) ▸ ih e2 hxs
      | ok ys =>
        rw [hxs] at h
        cases h

theorem spec_own_types_error (n : LogicalGet) (e : Error) (h : n.spec_own_types = .error e) :
    e = Error.IndexOutOfRange := by
  unfold LogicalGet.spec_own_types at h
  split at h
  · exact mapM_error _ (column_type_error _) _ _ h
  · refine mapM_error _ ?_ _ _ h
    intro p e1 hp
    cases hv : vector_at n.spec_column_ids p with
    | error e2 =>
      rw [hv] at hp
      exact (Except.error.inj hp) ▸ vector_at_error _ _ _ hv
    | ok c =>
      rw [hv] at hp
      exact column_type_error _ _ _ hp

theorem spec_input_types_many (n : LogicalGet) (hi : n.projected_input ≠ [])
    (hl : n.children.length ≠ 1) :
    n.spec_input_types = .error (Error.InternalException project_input_message) := by
  unfold LogicalGet.spec_input_types
  rw [if_neg hi]
  split
  · next child hch => rw [hch] at hl; exact absurd rfl hl
  · rfl

theorem spec_input_bindings_many (n : LogicalGet) (hi : n.projected_input ≠ [])
    (hl : n.children.length ≠ 1) :
    n.spec_input_bindings = .error (Error.InternalException project_input_message) := by
  unfold LogicalGet.spec_input_bindings
  rw [if_neg hi]
  split
  · next child hch => rw [hch] at hl; exact absurd rfl hl
  · rfl

theorem spec_input_types_error (n : LogicalGet)
    (h : n.projected_input = [] ∨ n.children.length = 1) (e : Error)
    (he : n.spec_input_types = .error e) : e = Error.IndexOutOfRange := by
  unfold LogicalGet.spec_input_types at he
  split at he
  · cases he
  · split at he
    · exact mapM_error _ (vector_at_error _) _ _ he
    · next hne hch =>
      rcases h with h | h
      · exact absurd h ‹_›
      · match hc : n.children, h with
        | [child], _ => exact absurd hc (hch child)

theorem spec_input_bindings_error (n : LogicalGet)
    (h : n.projected_input = [] ∨ n.children.length = 1) (e : Error)
    (he : n.spec_input_bindings = .error e) : e = Error.IndexOutOfRange := by
  unfold LogicalGet.spec_input_bindings at he
  split at he
  · cases he
  · split at he
    · exact mapM_error _ (vector_at_error _) _ _ he
    · next hne hch =>
      rcases h with h | h
      · exact absurd h ‹_›
      · match hc : n.children, h with
        | [child], _ => exact absurd hc (hch child)

/-! ## Schema resolution: the claims -/

/-- C1 (as amended): on a node on which a first `ResolveTypes` succeeded, a second run started
from the type list the first run started from gives exactly the first result; a second run
on the result itself appends the same types once more; the column list and the list returned by
`GetColumnBindings` are the same after both runs. -/
theorem C1_resolve_again (n n1 : LogicalGet) (h : n.ResolveTypes = .ok n1) :
    LogicalGet.ResolveTypes { n1 with types := n.types } = .ok n1 ∧
    n1.ResolveTypes = .ok { n1 with types := n1.types ++ n1.types.drop n.types.length } ∧
    LogicalGet.GetColumnBindings { n1 with types := n1.types ++ n1.types.drop n.types.length }
      = n1.GetColumnBindings := by
  obtain ⟨own, inp, ho, hi, rfl⟩ := ResolveTypes_ok n n1 h
  have hne := spec_column_ids_ne_nil n
  have hdrop : (n.types ++ own ++ inp).drop n.types.length = own ++ inp := by
    rw [List.append_assoc, List.drop_left]
  refine ⟨?_, ?_, rfl⟩
  · exact ResolveTypes_of { n with column_ids := n.spec_column_ids, types := n.types } n own inp
      ho hi (spec_column_ids_of_ne _ hne) rfl rfl rfl rfl
  · refine (ResolveTypes_of
      { n with column_ids := n.spec_column_ids, types := n.types ++ own ++ inp } n own inp
      ho hi (spec_column_ids_of_ne _ hne) rfl rfl rfl rfl).trans ?_
    simp only [hdrop]
    simp only [List.append_assoc]

/-- C1, witness: `example_scan` resolves to the types of its columns 2 and 0; resolving once
more from a cleared type list gives the same node. -/
theorem C1_resolve_again_witness :
    example_scan.ResolveTypes = .ok { example_scan with types := [⟨3⟩, ⟨1⟩] } ∧
    LogicalGet.ResolveTypes
        { ({ example_scan with types := [⟨3⟩, ⟨1⟩] } : LogicalGet) with types := example_scan.types }
      = .ok { example_scan with types := [⟨3⟩, ⟨1⟩] } :=
  ⟨rfl, (C1_resolve_again example_scan { example_scan with types := [⟨3⟩, ⟨1⟩] } rfl).1⟩

/-- C1, counterexample: on `example_scan` the first `ResolveTypes` leaves two output types and
the second leaves four. -/
theorem C1_counterexample :
    ∃ n1 n2, example_scan.ResolveTypes = .ok n1 ∧ n1.ResolveTypes = .ok n2 ∧
      n1.types = [⟨3⟩, ⟨1⟩] ∧ n2.types = [⟨3⟩, ⟨1⟩, ⟨3⟩, ⟨1⟩] ∧ n2.types ≠ n1.types :=
  ⟨{ example_scan with types := [⟨3⟩, ⟨1⟩] },
   { example_scan with types := [⟨3⟩, ⟨1⟩, ⟨3⟩, ⟨1⟩] }, rfl, rfl, rfl, rfl, by decide⟩

/-- C6 (as amended): on a node whose `column_ids` is empty, `GetColumnBindings` returns the
single binding `(table_index, 0)`; a successful `ResolveTypes` leaves `column_ids = [ROW_ID]`,
and so does a further run; when `projection_ids` and `projected_input` are empty as well,
`ResolveTypes` from an empty type list succeeds with the row-identifier type as its only type,
and the resolved node still has the single binding `(table_index, 0)`. -/
theorem C6_empty_column_ids (n : LogicalGet) (hc : n.column_ids = []) :
    n.GetColumnBindings = .ok [ColumnBinding.mk n.table_index 0] ∧
    (∀ n1, n.ResolveTypes = .ok n1 →
      n1.column_ids = [COLUMN_IDENTIFIER_ROW_ID] ∧
      ∀ n2, n1.ResolveTypes = .ok n2 → n2.column_ids = [COLUMN_IDENTIFIER_ROW_ID]) ∧
    (n.projection_ids = [] → n.projected_input = [] → n.types = [] →
      n.ResolveTypes
        = .ok { n with column_ids := [COLUMN_IDENTIFIER_ROW_ID],
                       types := [LogicalType.ROW_TYPE] } ∧
      LogicalGet.GetColumnBindings
          { n with column_ids := [COLUMN_IDENTIFIER_ROW_ID], types := [LogicalType.ROW_TYPE] }
        = .ok [ColumnBinding.mk n.table_index 0]) := by
  have hs : n.spec_column_ids = [COLUMN_IDENTIFIER_ROW_ID] := by
    simp [LogicalGet.spec_column_ids, hc]
  refine ⟨?_, ?_, ?_⟩
  · rw [GetColumnBindings_eq, if_pos hc]
  · intro n1 h1
    obtain ⟨own, inp, _, _, rfl⟩ := ResolveTypes_ok n n1 h1
    refine ⟨hs, ?_⟩
    intro n2 h2
    obtain ⟨own2, inp2, _, _, rfl⟩ := ResolveTypes_ok _ n2 h2
    show LogicalGet.spec_column_ids _ = _
    rw [spec_column_ids_of_ne _ (spec_column_ids_ne_nil n)]
    exact hs
  · intro hp hi ht
    constructor
    · have ho : n.spec_own_types = .ok [LogicalType.ROW_TYPE] := by
        unfold LogicalGet.spec_own_types
        rw [if_pos hp, hs, List.mapM_cons, List.mapM_nil]
        rfl
      have hn : n.spec_input_types = .ok [] := by
        unfold LogicalGet.spec_input_types
        rw [if_pos hi]
      rw [ResolveTypes_eq, ho, hn, hs, ht]
      rfl
    · rw [GetColumnBindings_eq]
      simp only [LogicalGet.spec_input_bindings, LogicalGet.spec_own_bindings, hp, hi,
        Except.map, if_true]
      rfl

/-- C6, witness: `example_unresolved` has no column, no projection and no child column. -/
theorem C6_empty_column_ids_witness :
    example_unresolved.column_ids = [] ∧
    example_unresolved.GetColumnBindings = .ok [ColumnBinding.mk 7 0] ∧
    example_unresolved.ResolveTypes
      = .ok { example_unresolved with column_ids := [COLUMN_IDENTIFIER_ROW_ID],
                                      types := [LogicalType.ROW_TYPE] } :=
  ⟨rfl, (C6_empty_column_ids example_unresolved rfl).1,
    ((C6_empty_column_ids example_unresolved rfl).2.2 rfl rfl rfl).1⟩

/-- C6, counterexample: `example_unresolved_in_out` has an empty `column_ids`, satisfies the
invariants of the data model, and resolves from an empty type list to two types, while
`GetColumnBindings` gives one binding before the resolution and two after it. -/
theorem C6_counterexample :
    example_unresolved_in_out.column_ids = [] ∧ example_unresolved_in_out.types = [] ∧
    ∃ n1, example_unresolved_in_out.ResolveTypes = .ok n1 ∧
      n1.types = [LogicalType.ROW_TYPE, ⟨10⟩] ∧
      example_unresolved_in_out.GetColumnBindings = .ok [ColumnBinding.mk 7 0] ∧
      n1.GetColumnBindings = .ok [ColumnBinding.mk 7 0, ColumnBinding.mk 5 0] :=
  ⟨rfl, rfl,
    { example_unresolved_in_out with
      column_ids := [COLUMN_IDENTIFIER_ROW_ID], types := [LogicalType.ROW_TYPE, ⟨10⟩] },
    rfl, rfl, rfl, rfl⟩

/-- C7: on a node with non-empty `column_ids` and empty `projected_input`, starting from an
empty type list: without a projection `GetColumnBindings` returns `(table_index, i)` for
`i = 0 .. |column_ids| - 1` and `ResolveTypes` produces `[ty(c) for c in column_ids]`; with a
projection `GetColumnBindings` returns `(table_index, p)` for `p` in `projection_ids` and
`ResolveTypes` produces `[ty(column_ids[p]) for p in projection_ids]`; `ty` is `column_type`.
The comprehension is taken in the error monad: the resolution fails exactly when an index it
has to read is out of range, and changes nothing but the type list otherwise. -/
theorem C7_own_columns (n : LogicalGet) (hc : n.column_ids ≠ []) (hi : n.projected_input = [])
    (ht : n.types = []) :
    (n.projection_ids = [] →
      n.GetColumnBindings
        = .ok ((List.range n.column_ids.length).map (ColumnBinding.mk n.table_index)) ∧
      n.ResolveTypes
        = (n.column_ids.mapM (column_type n.returned_types)).map
            (fun ts => { n with types := ts })) ∧
    (n.projection_ids ≠ [] →
      n.GetColumnBindings = .ok (n.projection_ids.map (ColumnBinding.mk n.table_index)) ∧
      n.ResolveTypes
        = (n.projection_ids.mapM
            (fun p => do
              let c ← vector_at n.column_ids p
              column_type n.returned_types c)).map
            (fun ts => { n with types := ts })) := by
  have hs := spec_column_ids_of_ne n hc
  have hn : n.spec_input_types = .ok [] := by
    unfold LogicalGet.spec_input_types
    rw [if_pos hi]
  have hb : n.spec_input_bindings = .ok [] := by
    unfold LogicalGet.spec_input_bindings
    rw [if_pos hi]
  constructor
  · intro hp
    constructor
    · rw [GetColumnBindings_eq, if_neg hc, hb]
      simp [LogicalGet.spec_own_bindings, hp, Except.map]
    · rw [ResolveTypes_eq, hn, hs, ht]
      unfold LogicalGet.spec_own_types
      rw [if_pos hp, hs]
      generalize List.mapM (column_type n.returned_types) n.column_ids = a
      cases a <;> simp [bind, Except.bind, Except.map, pure, Except.pure]
  · intro hp
    constructor
    · rw [GetColumnBindings_eq, if_neg hc, hb]
      simp [LogicalGet.spec_own_bindings, hp, Except.map]
    · rw [ResolveTypes_eq, hn, hs, ht]
      unfold LogicalGet.spec_own_types
      rw [if_neg hp, hs]
      generalize List.mapM (fun p => do
        let c ← vector_at n.column_ids p
        column_type n.returned_types c) n.projection_ids = a
      cases a <;> simp [bind, Except.bind, Except.map, pure, Except.pure]

/-- C7, witness: `example_scan` reads the declared columns 2 and 0 and projects both;
`example_projected` projects only its second read column. -/
theorem C7_own_columns_witness :
    (example_scan.GetColumnBindings = .ok [ColumnBinding.mk 7 0, ColumnBinding.mk 7 1] ∧
      example_scan.ResolveTypes = .ok { example_scan with types := [⟨3⟩, ⟨1⟩] }) ∧
    (example_projected.GetColumnBindings = .ok [ColumnBinding.mk 7 1] ∧
      example_projected.ResolveTypes = .ok { example_projected with types := [⟨1⟩] }) :=
  ⟨(C7_own_columns example_scan (by decide) rfl rfl).1 rfl,
   (C7_own_columns example_projected (by decide) rfl rfl).2 (by decide)⟩

/-- C8: on a node with non-empty `column_ids` and exactly one child, whose bindings are `cb`
and whose types are `ct`, if every entry of `projected_input` is a valid index into both lists
then `GetColumnBindings` returns the bindings of the node without `projected_input` followed by
`[cb[e] for e in projected_input]`, and `ResolveTypes` leaves the types of the node resolved
without `projected_input` followed by `[ct[e] for e in projected_input]`. The value `d` given
for an index out of range is never used. -/
theorem C8_table_in_out (n : LogicalGet) (child : LogicalOperator) (hc : n.column_ids ≠ [])
    (hch : n.children = [child])
    (hb : ∀ e ∈ n.projected_input, e < child.bindings.length)
    (ht : ∀ e ∈ n.projected_input, e < child.types.length) :
    (∃ own, LogicalGet.GetColumnBindings { n with projected_input := [] } = .ok own ∧
      ∀ d, n.GetColumnBindings
        = .ok (own ++ n.projected_input.map (fun e => child.bindings.getD e d))) ∧
    (∀ n0, LogicalGet.ResolveTypes { n with projected_input := [] } = .ok n0 →
      ∀ d, n.ResolveTypes
        = .ok { n0 with projected_input := n.projected_input,
                        types := n0.types ++ n.projected_input.map
                          (fun e => child.types.getD e d) }) := by
  constructor
  · refine ⟨n.spec_own_bindings, ?_, ?_⟩
    · rw [GetColumnBindings_eq]
      simp only [LogicalGet.spec_input_bindings, if_neg hc, if_true, Except.map]
      simp [LogicalGet.spec_own_bindings]
    · intro d
      rw [GetColumnBindings_eq, if_neg hc, spec_input_bindings_one n child hch,
        mapM_vector_at _ _ hb d]
      rfl
  · intro n0 h0 d
    obtain ⟨own, inp, ho, hi, rfl⟩ := ResolveTypes_ok _ n0 h0
    have hinp : inp = [] := by
      have : LogicalGet.spec_input_types { n with projected_input := [] } = .ok [] := rfl
      rw [this] at hi
      exact (Except.ok.inj hi).symm
    subst hinp
    have ho2 : n.spec_own_types = .ok own := ho
    rw [ResolveTypes_eq, ho2, spec_input_types_one n child hch, mapM_vector_at _ _ ht d]
    simp [bind, Except.bind, pure, Except.pure]
    rfl

/-- C8, witness: the example of the specification. The child has the bindings
`[(5,0),(5,1),(5,2)]` and `projected_input = [2,0]`: the bindings `[(5,2),(5,0)]` follow the two
own bindings of the node, and the child types at 2 and 0 follow its two own types. -/
theorem C8_table_in_out_witness :
    example_child.bindings = [ColumnBinding.mk 5 0, ColumnBinding.mk 5 1, ColumnBinding.mk 5 2] ∧
    example_in_out.projected_input = [2, 0] ∧
    example_in_out.GetColumnBindings
      = .ok ([ColumnBinding.mk 7 0, ColumnBinding.mk 7 1]
          ++ [ColumnBinding.mk 5 2, ColumnBinding.mk 5 0]) ∧
    example_in_out.ResolveTypes
      = .ok { example_in_out with types := [⟨3⟩, ⟨1⟩] ++ [⟨12⟩, ⟨10⟩] } := by
  have h := C8_table_in_out example_in_out example_child (by decide) rfl (by decide) (by decide)
  refine ⟨rfl, rfl, ?_, ?_⟩
  · obtain ⟨own, hown, hall⟩ := h.1
    have : own = [ColumnBinding.mk 7 0, ColumnBinding.mk 7 1] :=
      (Except.ok.inj hown).symm
    subst this
    exact hall (ColumnBinding.mk 0 0)
  · exact h.2 { example_scan with children := [example_child], types := [⟨3⟩, ⟨1⟩] } rfl
      LogicalType.ROW_TYPE

/-- C9 (as amended): on a node whose `projected_input` is non-empty and whose number of
children is not one, `GetColumnBindings` raises the internal-consistency error when
`column_ids` is non-empty and returns the single binding `(table_index, 0)` when `column_ids`
is empty; `ResolveTypes` never returns a node, and raises the internal-consistency error
whenever the own columns of the node resolve. When `projected_input` is empty or there is
exactly one child, neither function raises an internal-consistency error. -/
theorem C9_project_input_error (n : LogicalGet) :
    (n.projected_input ≠ [] → n.children.length ≠ 1 →
      (n.column_ids ≠ [] →
        n.GetColumnBindings = .error (Error.InternalException project_input_message)) ∧
      (n.column_ids = [] → n.GetColumnBindings = .ok [ColumnBinding.mk n.table_index 0]) ∧
      (∀ n1, n.ResolveTypes ≠ .ok n1) ∧
      (∀ n0, LogicalGet.ResolveTypes { n with projected_input := [] } = .ok n0 →
        n.ResolveTypes = .error (Error.InternalException project_input_message))) ∧
    ((n.projected_input = [] ∨ n.children.length = 1) →
      ∀ msg, n.GetColumnBindings ≠ .error (Error.InternalException msg) ∧
        n.ResolveTypes ≠ .error (Error.InternalException msg)) := by
  constructor
  · intro hi hl
    have hit := spec_input_types_many n hi hl
    have hib := spec_input_bindings_many n hi hl
    refine ⟨?_, ?_, ?_, ?_⟩
    · intro hc
      rw [GetColumnBindings_eq, if_neg hc, hib]
      rfl
    · intro hc
      rw [GetColumnBindings_eq, if_pos hc]
    · intro n1 h1
      obtain ⟨own, inp, _, hinp, _⟩ := ResolveTypes_ok n n1 h1
      rw [hit] at hinp
      cases hinp
    · intro n0 h0
      obtain ⟨own, inp, ho, _, _⟩ := ResolveTypes_ok _ n0 h0
      have ho2 : n.spec_own_types = .ok own := ho
      rw [ResolveTypes_eq, ho2, hit]
      rfl
  · intro h msg
    constructor
    · intro hg
      rw [GetColumnBindings_eq] at hg
      split at hg
      · cases hg
      · cases hb : n.spec_input_bindings with
        | error e =>
          rw [hb] at hg
          have := spec_input_bindings_error n h e hb
          subst this
          cases hg
        | ok inp =>
          rw [hb] at hg
          cases hg
    · intro hr
      rw [ResolveTypes_eq] at hr
      cases ho : n.spec_own_types with
      | error e =>
        rw [ho] at hr
        have := spec_own_types_error n e ho
        subst this
        cases hr
      | ok own =>
        rw [ho] at hr
        cases hn : n.spec_input_types with
        | error e =>
          rw [hn] at hr
          have := spec_input_types_error n h e hn
          subst this
          cases hr
        | ok inp =>
          rw [hn] at hr
          cases hr

/-- C9, witness: `example_scan` with a child column to splice in and no child raises the error in
both functions; `example_in_out`, with one child, raises it in neither. -/
theorem C9_project_input_error_witness :
    LogicalGet.GetColumnBindings { example_scan with projected_input := [0] }
      = .error (Error.InternalException project_input_message) ∧
    LogicalGet.ResolveTypes { example_scan with projected_input := [0] }
      = .error (Error.InternalException project_input_message) ∧
    example_in_out.GetColumnBindings ≠ .error (Error.InternalException project_input_message) ∧
    example_in_out.ResolveTypes ≠ .error (Error.InternalException project_input_message) :=
  have h := (C9_project_input_error { example_scan with projected_input := [0] }).1
    (by decide) (by decide)
  have g := (C9_project_input_error example_in_out).2 (Or.inr rfl) project_input_message
  ⟨h.1 (by decide), h.2.2.2 { example_scan with types := [⟨3⟩, ⟨1⟩] } rfl, g.1, g.2⟩

/-- C9, counterexample: `example_orphan` has a non-empty `projected_input` and no child, and
`GetColumnBindings` returns one binding instead of raising the error. -/
theorem C9_counterexample :
    example_orphan.projected_input ≠ [] ∧ example_orphan.children.length ≠ 1 ∧
    example_orphan.GetColumnBindings = .ok [ColumnBinding.mk 7 0] :=
  ⟨by decide, by decide, rfl⟩

/-! ## Cardinality: the claims -/

/-- C10: `EstimateCardinality` returns the pinned estimate whenever one is set, whatever the
source estimator would return; with no pin it returns the estimate of the source estimator
when the source has one and it returns statistics carrying an estimate; with no pin and no
estimator, an estimator that returns nothing, or statistics without an estimate, it
returns 1. -/
theorem C10_estimate_cardinality (n : LogicalGet) (context : ClientContext) :
    (n.has_estimated_cardinality = true →
      n.EstimateCardinality context = n.estimated_cardinality) ∧
    (n.has_estimated_cardinality = false →
      (∀ cardinality stats, n.function.cardinality = some cardinality →
        cardinality context n.bind_data = some stats →
        stats.has_estimated_cardinality = true →
        n.EstimateCardinality context = stats.estimated_cardinality) ∧
      (n.function.cardinality = none → n.EstimateCardinality context = 1) ∧
      (∀ cardinality, n.function.cardinality = some cardinality →
        cardinality context n.bind_data = none → n.EstimateCardinality context = 1) ∧
      (∀ cardinality stats, n.function.cardinality = some cardinality →
        cardinality context n.bind_data = some stats →
        stats.has_estimated_cardinality = false → n.EstimateCardinality context = 1)) := by
  constructor
  · intro hp
    simp [LogicalGet.EstimateCardinality, hp]
  · intro hp
    refine ⟨?_, ?_, ?_, ?_⟩
    · intro cardinality stats hc hs he
      simp [LogicalGet.EstimateCardinality, hp, hc, hs, he]
    · intro hc
      simp [LogicalGet.EstimateCardinality, hp, hc]
    · intro cardinality hc hs
      simp [LogicalGet.EstimateCardinality, hp, hc, hs]
    · intro cardinality stats hc hs he
      simp [LogicalGet.EstimateCardinality, hp, hc, hs, he]

/-- C10, witness: with the estimate 42 pinned the answer is 42 although the source estimator
answers 1000; without the pin the answer is the 1000 of the estimator; without pin and
estimator it is 1. -/
theorem C10_estimate_cardinality_witness :
    example_pinned.EstimateCardinality ⟨0⟩ = 42 ∧
    example_estimated.EstimateCardinality ⟨0⟩ = 1000 ∧
    example_scan.EstimateCardinality ⟨0⟩ = 1 :=
  ⟨(C10_estimate_cardinality example_pinned ⟨0⟩).1 rfl,
   ((C10_estimate_cardinality example_estimated ⟨0⟩).2 rfl).1
     (fun _ _ => some ⟨true, 1000, false, 0⟩) ⟨true, 1000, false, 0⟩ rfl rfl rfl,
   ((C10_estimate_cardinality example_scan ⟨0⟩).2 rfl).2.1 rfl⟩

/-! ## Persistence: streams -/

theorem resolution_congr (m n : LogicalGet) (h1 : m.table_index = n.table_index)
    (h2 : m.column_ids = n.column_ids) (h3 : m.projection_ids = n.projection_ids)
    (h4 : m.returned_types = n.returned_types) (h5 : m.projected_input = n.projected_input)
    (h6 : m.children = n.children) (h7 : m.types = n.types) :
    m.GetColumnBindings = n.GetColumnBindings ∧
    m.ResolveTypes.map LogicalGet.types = n.ResolveTypes.map LogicalGet.types := by
  constructor
  · unfold LogicalGet.GetColumnBindings
    rw [h1, h2, h3, h5, h6]
  · have hs : m.spec_column_ids = n.spec_column_ids := by
      unfold LogicalGet.spec_column_ids
      rw [h2]
    rw [ResolveTypes_eq, ResolveTypes_eq, spec_own_types_congr m n hs h3 h4,
      spec_input_types_congr m n h5 h6, h7]
    cases n.spec_own_types <;> cases n.spec_input_types <;> rfl

theorem Serialize_direct (n : LogicalGet) (ser : Option FunctionData → List Field)
    (hs : n.function.serialize = some ser) :
    n.Serialize
      = Field.idx n.table_index :: Field.types n.returned_types :: Field.strings n.names ::
        Field.columns n.column_ids :: Field.columns n.projection_ids ::
        Field.filters n.table_filters :: Field.str n.function.name :: Field.bool true ::
        (ser n.bind_data ++ [Field.columns n.projected_input]) := by
  simp [LogicalGet.Serialize, FunctionSerializer.SerializeBase, hs]

theorem DeserializeBaseInternal_direct (state : LogicalDeserializationState)
    (function : TableFunction) (name : String)
    (de : List Field → Except Error (Option FunctionData × List Field))
    (reader rest : List Field) (bind_info : Option FunctionData)
    (hcat : state.catalog name = some function) (hd : function.deserialize = some de)
    (hr : de reader = .ok (bind_info, rest)) :
    FunctionSerializer.DeserializeBaseInternal state (Field.str name :: Field.bool true :: reader)
      = .ok (function, bind_info, true, rest) := by
  simp [FunctionSerializer.DeserializeBaseInternal, FieldReader.ReadRequired_string,
    FieldReader.ReadRequired_bool, hcat, hd, hr, bind, Except.bind, pure, Except.pure]

theorem DeserializeBaseInternal_rebind (state : LogicalDeserializationState)
    (function : TableFunction) (name : String) (reader : List Field)
    (hcat : state.catalog name = some function) :
    FunctionSerializer.DeserializeBaseInternal state
        (Field.str name :: Field.bool false :: reader)
      = .ok (function, none, false, reader) := by
  simp [FunctionSerializer.DeserializeBaseInternal, FieldReader.ReadRequired_string,
    FieldReader.ReadRequired_bool, hcat, bind, Except.bind, pure, Except.pure]

theorem Deserialize_direct (n : LogicalGet) (state : LogicalDeserializationState)
    (ser : Option FunctionData → List Field)
    (de : List Field → Except Error (Option FunctionData × List Field))
    (hcat : state.catalog n.function.name = some n.function)
    (hs : n.function.serialize = some ser) (hd : n.function.deserialize = some de)
    (hr : de (ser n.bind_data ++ [Field.columns n.projected_input])
      = .ok (n.bind_data, [Field.columns n.projected_input])) :
    LogicalGet.Deserialize state n.Serialize
      = .ok { LogicalGet.create n.table_index n.function n.bind_data n.returned_types n.names with
          column_ids := n.column_ids, projection_ids := n.projection_ids,
          table_filters := n.table_filters, projected_input := n.projected_input } := by
  rw [Serialize_direct n ser hs]
  simp [LogicalGet.Deserialize, FieldReader.ReadRequired_idx,
    FieldReader.ReadRequiredSerializableList_type, FieldReader.ReadRequiredList_string,
    FieldReader.ReadRequiredList_column, FieldReader.ReadRequiredSerializable_filters,
    DeserializeBaseInternal_direct state n.function n.function.name de _ _ _ hcat hd hr,
    FieldReader.ReadList_column, bind, Except.bind, pure, Except.pure, LogicalGet.create,
    LogicalGet.default]

theorem FormatSerialize_direct (n : LogicalGet) (ser : Option FunctionData → List Token)
    (hs : n.function.format_serialize = some ser) :
    n.FormatSerialize.drop (LogicalOperator.FormatSerialize n).length
      = Token.property "table_index" (.idx n.table_index) ::
        Token.property "returned_types" (.types n.returned_types) ::
        Token.property "names" (.strings n.names) ::
        Token.property "column_ids" (.columns n.column_ids) ::
        Token.property "projection_ids" (.columns n.projection_ids) ::
        Token.property "table_filters" (.filters n.table_filters) ::
        Token.property "name" (.str n.function.name) ::
        Token.property "has_serialize" (.bool true) ::
        Token.begin_object "function_data" ::
        (ser n.bind_data
          ++ [Token.end_object, Token.property "projected_input" (.columns n.projected_input)])
    := by
  simp [LogicalGet.FormatSerialize, LogicalOperator.FormatSerialize,
    FunctionSerializer.FormatSerialize, hs]

theorem FormatDeserializeBase_eq (state : LogicalDeserializationState)
    (function : TableFunction) (name : String) (flag : Bool) (deserializer : List Token)
    (hcat : state.catalog name = some function) :
    FunctionSerializer.FormatDeserializeBase state
        (Token.property "name" (.str name) :: Token.property "has_serialize" (.bool flag) ::
          deserializer)
      = .ok (function, flag, deserializer) := by
  simp [FunctionSerializer.FormatDeserializeBase, FormatDeserializer.ReadProperty_string,
    FormatDeserializer.ReadProperty_bool, hcat, bind, Except.bind, pure, Except.pure]

theorem FunctionDeserialize_eq (function : TableFunction)
    (de : List Token → Except Error (Option FunctionData × List Token))
    (deserializer rest : List Token) (bind_info : Option FunctionData)
    (hd : function.format_deserialize = some de)
    (hr : de deserializer = .ok (bind_info, Token.end_object :: rest)) :
    FunctionSerializer.FunctionDeserialize (Token.begin_object "function_data" :: deserializer)
        function
      = .ok (bind_info, rest) := by
  simp [FunctionSerializer.FunctionDeserialize, hd, hr, bind, Except.bind, pure, Except.pure]

theorem FormatDeserialize_direct (n : LogicalGet) (state : LogicalDeserializationState)
    (ser : Option FunctionData → List Token)
    (de : List Token → Except Error (Option FunctionData × List Token))
    (hcat : state.catalog n.function.name = some n.function)
    (hs : n.function.format_serialize = some ser)
    (hd : n.function.format_deserialize = some de)
    (hr : de (ser n.bind_data
        ++ [Token.end_object, Token.property "projected_input" (.columns n.projected_input)])
      = .ok (n.bind_data,
          [Token.end_object, Token.property "projected_input" (.columns n.projected_input)])) :
    LogicalGet.FormatDeserialize state
        (n.FormatSerialize.drop (LogicalOperator.FormatSerialize n).length)
      = .ok { LogicalGet.default with
          table_index := n.table_index, returned_types := n.returned_types, names := n.names,
          column_ids := n.column_ids, projection_ids := n.projection_ids,
          table_filters := n.table_filters, projected_input := n.projected_input } := by
  rw [FormatSerialize_direct n ser hs]
  simp [LogicalGet.FormatDeserialize, FormatDeserializer.ReadProperty_idx,
    FormatDeserializer.ReadProperty_types, FormatDeserializer.ReadProperty_strings,
    FormatDeserializer.ReadProperty_columns, FormatDeserializer.ReadProperty_filters,
    FormatDeserializeBase_eq state n.function n.function.name true _ hcat,
    FunctionDeserialize_eq n.function de _ _ _ hd hr,
    bind, Except.bind, pure, Except.pure, LogicalGet.default]

theorem foldl_push_pair (pairs : List (String × Value)) (init : List Field) :
    pairs.foldl (fun written pair => written ++ [Field.str pair.1, Field.value pair.2]) init
      = init ++ pairs.flatMap (fun pair => [Field.str pair.1, Field.value pair.2]) := by
  induction pairs generalizing init with
  | nil => simp
  | cons p ps ih => simp [ih, List.flatMap_cons]

theorem Deserialize_named_parameters_eq (pairs m : List (String × Value)) (rest : List Field) :
    LogicalGet.Deserialize_named_parameters pairs.length m
        (pairs.flatMap (fun pair => [Field.str pair.1, Field.value pair.2]) ++ rest)
      = .ok (pairs.foldl named_parameter_map_insert m, rest) := by
  induction pairs generalizing m with
  | nil => rfl
  | cons p ps ih =>
    simp only [List.length_cons, List.flatMap_cons, List.cons_append, List.nil_append,
      LogicalGet.Deserialize_named_parameters, FieldReader.ReadRequired_string,
      FieldReader.ReadRequiredSerializable_value, bind, Except.bind, List.foldl_cons]
    exact ih _

theorem Serialize_rebind (n : LogicalGet) (hs : n.function.serialize = none) :
    n.Serialize
      = Field.idx n.table_index :: Field.types n.returned_types :: Field.strings n.names ::
        Field.columns n.column_ids :: Field.columns n.projection_ids ::
        Field.filters n.table_filters :: Field.str n.function.name :: Field.bool false ::
        Field.values n.parameters :: Field.idx n.named_parameters.length ::
        (n.named_parameters.flatMap (fun pair => [Field.str pair.1, Field.value pair.2])
          ++ [Field.types n.input_table_types, Field.strings n.input_table_names,
              Field.columns n.projected_input]) := by
  simp [LogicalGet.Serialize, FunctionSerializer.SerializeBase, hs, foldl_push_pair]

theorem Deserialize_rebind (n : LogicalGet) (state : LogicalDeserializationState)
    (f : TableFunction) (hcat : state.catalog n.function.name = some f)
    (hs : n.function.serialize = none) :
    LogicalGet.Deserialize state n.Serialize
      = match f.bind with
        | none => .error Error.NullFunctionCall
        | some bind =>
          match bind state.context
              { inputs := n.parameters,
                named_parameters := n.named_parameters.foldl named_parameter_map_insert [],
                input_table_types := n.input_table_types,
                input_table_names := n.input_table_names, info := f.function_info } with
          | .error e => .error e
          | .ok (bd, tys, nms) =>
            if n.returned_types ≠ tys then
              .error (Error.SerializationException different_types_message)
            else if n.names.length ≠ nms.length then
              .error (Error.SerializationException different_names_message)
            else
              .ok { LogicalGet.create n.table_index f bd n.returned_types n.names with
                column_ids := n.column_ids, projection_ids := n.projection_ids,
                table_filters := n.table_filters, parameters := n.parameters,
                named_parameters := n.named_parameters.foldl named_parameter_map_insert [],
                input_table_types := n.input_table_types,
                input_table_names := n.input_table_names,
                projected_input := n.projected_input } := by
  rw [Serialize_rebind n hs]
  simp only [LogicalGet.Deserialize, FieldReader.ReadRequired_idx,
    FieldReader.ReadRequiredSerializableList_type, FieldReader.ReadRequiredList_string,
    FieldReader.ReadRequiredList_column, FieldReader.ReadRequiredSerializable_filters,
    FieldReader.ReadRequiredSerializableList_value,
    DeserializeBaseInternal_rebind state f n.function.name _ hcat,
    Deserialize_named_parameters_eq, bind, Except.bind, pure, Except.pure]
  cases hb : f.bind with
  | none => simp [throw, throwThe, MonadExceptOf.throw]
  | some bind =>
    simp only [Bool.not_false, if_true]
    cases hr : bind state.context
        { inputs := n.parameters,
          named_parameters := n.named_parameters.foldl named_parameter_map_insert [],
          input_table_types := n.input_table_types,
          input_table_names := n.input_table_names, info := f.function_info } with
    | error e => simp
    | ok v =>
      obtain ⟨bd, tys, nms⟩ := v
      by_cases h1 : n.returned_types = tys
      · by_cases h2 : n.names.length = nms.length
        · simp [h1, h2, FieldReader.ReadList_column, LogicalGet.create, LogicalGet.default]
        · simp [h1, h2, throw, throwThe, MonadExceptOf.throw]
      · simp [h1, throw, throwThe, MonadExceptOf.throw]

theorem FormatSerialize_rebind (n : LogicalGet) (hs : n.function.format_serialize = none) :
    n.FormatSerialize.drop (LogicalOperator.FormatSerialize n).length
      = Token.property "table_index" (.idx n.table_index) ::
        Token.property "returned_types" (.types n.returned_types) ::
        Token.property "names" (.strings n.names) ::
        Token.property "column_ids" (.columns n.column_ids) ::
        Token.property "projection_ids" (.columns n.projection_ids) ::
        Token.property "table_filters" (.filters n.table_filters) ::
        Token.property "name" (.str n.function.name) ::
        Token.property "has_serialize" (.bool false) ::
        [Token.property "parameters" (.values n.parameters),
          Token.property "named_parameters" (.named_values n.named_parameters),
          Token.property "input_table_types" (.types n.input_table_types),
          Token.property "input_table_names" (.strings n.input_table_names),
          Token.property "projected_input" (.columns n.projected_input)] := by
  simp [LogicalGet.FormatSerialize, LogicalOperator.FormatSerialize,
    FunctionSerializer.FormatSerialize, hs]

theorem FormatDeserialize_rebind (n : LogicalGet) (state : LogicalDeserializationState)
    (f : TableFunction) (hcat : state.catalog n.function.name = some f)
    (hs : n.function.format_serialize = none) :
    LogicalGet.FormatDeserialize state
        (n.FormatSerialize.drop (LogicalOperator.FormatSerialize n).length)
      = match f.bind with
        | none => .error (Error.InternalException (neither_message f.name))
        | some bind =>
          match bind state.context
              { inputs := n.parameters, named_parameters := n.named_parameters,
                input_table_types := n.input_table_types,
                input_table_names := n.input_table_names, info := f.function_info } with
          | .error e => .error e
          | .ok (_, tys, nms) =>
            if n.returned_types ≠ tys then
              .error (Error.SerializationException different_types_message)
            else if n.names.length ≠ nms.length then
              .error (Error.SerializationException different_names_message)
            else
              .ok { LogicalGet.default with
                table_index := n.table_index, returned_types := n.returned_types,
                names := n.names, column_ids := n.column_ids,
                projection_ids := n.projection_ids, table_filters := n.table_filters,
                parameters := n.parameters, named_parameters := n.named_parameters,
                input_table_types := n.input_table_types,
                input_table_names := n.input_table_names,
                projected_input := n.projected_input } := by
  rw [FormatSerialize_rebind n hs]
  simp only [LogicalGet.FormatDeserialize, FormatDeserializer.ReadProperty_idx,
    FormatDeserializer.ReadProperty_types, FormatDeserializer.ReadProperty_strings,
    FormatDeserializer.ReadProperty_columns, FormatDeserializer.ReadProperty_filters,
    FormatDeserializer.ReadProperty_values, FormatDeserializer.ReadProperty_named_values,
    FormatDeserializeBase_eq state f n.function.name false _ hcat,
    bind, Except.bind, pure, Except.pure, if_true, Bool.not_false]
  cases hb : f.bind with
  | none => simp [throw, throwThe, MonadExceptOf.throw]
  | some bind =>
    simp only [LogicalGet.default]
    cases hr : bind state.context
        { inputs := n.parameters, named_parameters := n.named_parameters,
          input_table_types := n.input_table_types,
          input_table_names := n.input_table_names, info := f.function_info } with
    | error e => simp
    | ok v =>
      obtain ⟨bd, tys, nms⟩ := v
      by_cases h1 : n.returned_types = tys
      · by_cases h2 : n.names.length = nms.length
        · simp [h1, h2, FormatDeserializer.ReadProperty_columns]
        · simp [h1, h2, throw, throwThe, MonadExceptOf.throw]
      · simp [h1, throw, throwThe, MonadExceptOf.throw]

/-! ## Persistence: the claims -/

/-- C2: round trip on the direct-codec path. If the source of a node has a serializer and a
deserializer that reads back the bind state the serializer wrote (leaving the rest of the
stream), and the registry returns that source for its name, then `Deserialize` applied to what
`Serialize` wrote returns a node with the same `table_index`, `column_ids`, `projection_ids`,
filters, `returned_types`, `names` and `projected_input`, and with the same column bindings
and resolved types for the same children; so does `FormatDeserialize` applied to what
`FormatSerialize` wrote after the base-class part, for the codec pair of that encoding. -/
theorem C2_direct_codec_round_trip (n : LogicalGet) (state : LogicalDeserializationState)
    (hcat : state.catalog n.function.name = some n.function) :
    (∀ ser de, n.function.serialize = some ser → n.function.deserialize = some de →
      (∀ rest, de (ser n.bind_data ++ rest) = .ok (n.bind_data, rest)) →
      ∃ r, LogicalGet.Deserialize state n.Serialize = .ok r ∧ r.same_persisted_schema n) ∧
    (∀ ser de, n.function.format_serialize = some ser →
      n.function.format_deserialize = some de →
      (∀ rest, de (ser n.bind_data ++ rest) = .ok (n.bind_data, rest)) →
      ∃ r, LogicalGet.FormatDeserialize state
          (n.FormatSerialize.drop (LogicalOperator.FormatSerialize n).length) = .ok r ∧
        r.same_persisted_schema n) := by
  constructor
  · intro ser de hs hd hr
    refine ⟨_, Deserialize_direct n state ser de hcat hs hd (hr _), ?_⟩
    have h := resolution_congr
      { LogicalGet.create n.table_index n.function n.bind_data n.returned_types n.names with
        column_ids := n.column_ids, projection_ids := n.projection_ids,
        table_filters := n.table_filters, projected_input := n.projected_input,
        children := n.children, types := [] }
      { n with types := [] } rfl rfl rfl rfl rfl rfl rfl
    exact ⟨rfl, rfl, rfl, rfl, rfl, rfl, rfl, h.1, h.2⟩
  · intro ser de hs hd hr
    refine ⟨_, FormatDeserialize_direct n state ser de hcat hs hd (hr _), ?_⟩
    have h := resolution_congr
      { LogicalGet.default with
        table_index := n.table_index, returned_types := n.returned_types, names := n.names,
        column_ids := n.column_ids, projection_ids := n.projection_ids,
        table_filters := n.table_filters, projected_input := n.projected_input,
        children := n.children, types := [] }
      { n with types := [] } rfl rfl rfl rfl rfl rfl rfl
    exact ⟨rfl, rfl, rfl, rfl, rfl, rfl, rfl, h.1, h.2⟩

/-- C2, witness: `example_codec_scan` persisted over a source whose codec writes the payload of
the bind state, in both encodings. -/
theorem C2_direct_codec_round_trip_witness :
    (∃ r, LogicalGet.Deserialize (example_state example_codec_function)
        example_codec_scan.Serialize = .ok r ∧
      r.same_persisted_schema example_codec_scan) ∧
    (∃ r, LogicalGet.FormatDeserialize (example_state example_codec_function)
        (example_codec_scan.FormatSerialize.drop
          (LogicalOperator.FormatSerialize example_codec_scan).length) = .ok r ∧
      r.same_persisted_schema example_codec_scan) :=
  have h := C2_direct_codec_round_trip example_codec_scan
    (example_state example_codec_function) rfl
  ⟨h.1 _ _ rfl rfl (fun _ => rfl), h.2 _ _ rfl rfl (fun _ => rfl)⟩

/-- C3: the rebind path. The node was written without a direct codec, the registry returns a
source `f` with a bind operation, and the replayed bind call returns the types `tys` and the
names `nms`. Then the decoder fails with a serialization error exactly when `tys` differs from
the stored `returned_types` or `nms` and the stored names differ in number; when neither is the
case it returns a node that keeps the stored `returned_types` and names, whatever the names in
`nms` are. This holds for `Deserialize`, whose bind call sees the named parameters as they were
inserted back into a map, and for `FormatDeserialize`. -/
theorem C3_rebind_mismatch (n : LogicalGet) (state : LogicalDeserializationState)
    (f : TableFunction)
    (bind : ClientContext → TableFunctionBindInput →
      Except Error (Option FunctionData × List LogicalType × List String))
    (hcat : state.catalog n.function.name = some f) (hb : f.bind = some bind) :
    (∀ bd tys nms, n.function.serialize = none →
      bind state.context
          { inputs := n.parameters,
            named_parameters := n.named_parameters.foldl named_parameter_map_insert [],
            input_table_types := n.input_table_types,
            input_table_names := n.input_table_names, info := f.function_info }
        = .ok (bd, tys, nms) →
      ((∃ msg, LogicalGet.Deserialize state n.Serialize
          = .error (Error.SerializationException msg)) ↔
        (tys ≠ n.returned_types ∨ nms.length ≠ n.names.length)) ∧
      (tys = n.returned_types → nms.length = n.names.length →
        ∃ r, LogicalGet.Deserialize state n.Serialize = .ok r ∧
          r.returned_types = n.returned_types ∧ r.names = n.names)) ∧
    (∀ bd tys nms, n.function.format_serialize = none →
      bind state.context
          { inputs := n.parameters, named_parameters := n.named_parameters,
            input_table_types := n.input_table_types,
            input_table_names := n.input_table_names, info := f.function_info }
        = .ok (bd, tys, nms) →
      ((∃ msg, LogicalGet.FormatDeserialize state
          (n.FormatSerialize.drop (LogicalOperator.FormatSerialize n).length)
          = .error (Error.SerializationException msg)) ↔
        (tys ≠ n.returned_types ∨ nms.length ≠ n.names.length)) ∧
      (tys = n.returned_types → nms.length = n.names.length →
        ∃ r, LogicalGet.FormatDeserialize state
            (n.FormatSerialize.drop (LogicalOperator.FormatSerialize n).length) = .ok r ∧
          r.returned_types = n.returned_types ∧ r.names = n.names)) := by
  constructor
  · intro bd tys nms hs hr
    rw [Deserialize_rebind n state f hcat hs]
    simp only [hb, hr]
    by_cases h1 : n.returned_types = tys
    · by_cases h2 : n.names.length = nms.length
      · simp [h1, h2, LogicalGet.create]
      · have h3 : ¬ nms.length = n.names.length := fun h => h2 h.symm
        simp [h1, h2, h3]
    · have h3 : ¬ tys = n.returned_types := fun h => h1 h.symm
      simp [h1, h3]
  · intro bd tys nms hs hr
    rw [FormatDeserialize_rebind n state f hcat hs]
    simp only [hb, hr]
    by_cases h1 : n.returned_types = tys
    · by_cases h2 : n.names.length = nms.length
      · simp [h1, h2]
      · have h3 : ¬ nms.length = n.names.length := fun h => h2 h.symm
        simp [h1, h2, h3]
    · have h3 : ¬ tys = n.returned_types := fun h => h1 h.symm
      simp [h1, h3]

/-- C3, witness: `example_rebind_scan` was written with the names a, b, c. Over the source
that returns the stored types under the names x, y, z both decoders succeed and keep the stored
types and names; over the source that now returns two types both fail with a serialization
error. -/
theorem C3_rebind_mismatch_witness :
    (∃ r, LogicalGet.Deserialize (example_state example_rebind_function)
        example_rebind_scan.Serialize = .ok r ∧
      r.returned_types = [⟨1⟩, ⟨2⟩, ⟨3⟩] ∧ r.names = ["a", "b", "c"]) ∧
    (∃ r, LogicalGet.FormatDeserialize (example_state example_rebind_function)
        (example_rebind_scan.FormatSerialize.drop
          (LogicalOperator.FormatSerialize example_rebind_scan).length) = .ok r ∧
      r.returned_types = [⟨1⟩, ⟨2⟩, ⟨3⟩] ∧ r.names = ["a", "b", "c"]) ∧
    (∃ msg, LogicalGet.Deserialize (example_state example_mutated_function)
        example_rebind_scan.Serialize = .error (Error.SerializationException msg)) ∧
    (∃ msg, LogicalGet.FormatDeserialize (example_state example_mutated_function)
        (example_rebind_scan.FormatSerialize.drop
          (LogicalOperator.FormatSerialize example_rebind_scan).length)
        = .error (Error.SerializationException msg)) :=
  have h := C3_rebind_mismatch example_rebind_scan (example_state example_rebind_function)
    example_rebind_function
    (fun _ input => .ok (some ⟨[input.inputs.length]⟩, [⟨1⟩, ⟨2⟩, ⟨3⟩], ["x", "y", "z"]))
    rfl rfl
  have g := C3_rebind_mismatch example_rebind_scan (example_state example_mutated_function)
    example_mutated_function
    (fun _ input => .ok (some ⟨[input.inputs.length]⟩, [⟨1⟩, ⟨2⟩], ["x", "y"]))
    rfl rfl
  ⟨(h.1 _ _ _ rfl rfl).2 rfl rfl, (h.2 _ _ _ rfl rfl).2 rfl rfl,
   (g.1 _ _ _ rfl rfl).1.mpr (Or.inl (by decide)),
   (g.2 _ _ _ rfl rfl).1.mpr (Or.inl (by decide))⟩

/-- C4, at the failing input: a record written without a direct codec is decoded against a
registry whose source has no bind operation. `FormatDeserialize` raises the internal error of
lines 255-257; `Deserialize` reaches the call of line 185 through the null pointer. -/
theorem C4_deserialize_without_bind :
    example_bare_function.bind = none ∧ example_bare_function.deserialize = none ∧
    example_bare_function.format_deserialize = none ∧
    LogicalGet.FormatDeserialize (example_state example_bare_function)
        (example_bare_scan.FormatSerialize.drop
          (LogicalOperator.FormatSerialize example_bare_scan).length)
      = .error (Error.InternalException (neither_message "bare_scan")) ∧
    LogicalGet.Deserialize (example_state example_bare_function) example_bare_scan.Serialize
      = .error Error.NullFunctionCall :=
  ⟨rfl, rfl, rfl, rfl, rfl⟩

/-- C5, at the failing input: `example_codec_scan` has the bind state `[4, 2]` and a source with
a direct codec. `Deserialize` returns a node that carries the source and the bind state the
source deserializer produced; `FormatDeserialize` succeeds and returns a node with the
default-constructed function and no bind state. -/
theorem C5_format_node_without_function :
    (∃ r, LogicalGet.Deserialize (example_state example_codec_function)
        example_codec_scan.Serialize = .ok r ∧
      r.function.name = "codec_scan" ∧ r.bind_data = some ⟨[4, 2]⟩) ∧
    (∃ r, LogicalGet.FormatDeserialize (example_state example_codec_function)
        (example_codec_scan.FormatSerialize.drop
          (LogicalOperator.FormatSerialize example_codec_scan).length) = .ok r ∧
      r.function.name = "" ∧ r.function.format_deserialize.isNone = true ∧
      r.bind_data = none) :=
  ⟨⟨_, Deserialize_direct example_codec_scan (example_state example_codec_function) _ _
      rfl rfl rfl rfl, rfl, rfl⟩,
   ⟨_, FormatDeserialize_direct example_codec_scan (example_state example_codec_function) _ _
      rfl rfl rfl rfl, rfl, rfl, rfl⟩⟩

/-! ## Diagnostics: the sections -/

theorem foldl_filter_eq (names : List String) (filters : List (Nat × TableFilter))
    (init : String) :
    filters.foldl (LogicalGet.ParamsToString_filter names) init
      = init ++ concat_texts (filters.map (spec_filter_line names)) := by
  induction filters generalizing init with
  | nil => simp [concat_texts]
  | cons kv kvs ih =>
    rw [List.foldl_cons, ih, List.map_cons, concat_texts]
    have h : LogicalGet.ParamsToString_filter names init kv
        = init ++ spec_filter_line names kv := by
      unfold LogicalGet.ParamsToString_filter spec_filter_line
      by_cases hk : kv.1 < names.length
      · simp [hk, String.append_assoc]
      · simp [hk]
    rw [h, String.append_assoc]

theorem concat_texts_append (xs ys : List String) :
    concat_texts (xs ++ ys) = concat_texts xs ++ concat_texts ys := by
  induction xs with
  | nil => simp [concat_texts]
  | cons x xs ih => simp [concat_texts, ih, String.append_assoc]

theorem ParamsToString_eq (n : LogicalGet) :
    n.ParamsToString
      = concat_texts (n.table_filters.filters.map (spec_filter_line n.names))
        ++ (n.spec_file_section ++ n.spec_source_section) := by
  unfold LogicalGet.ParamsToString LogicalGet.spec_file_section LogicalGet.spec_source_section
  simp only [foldl_filter_eq, String.empty_append]
  by_cases hf : n.file_filters = "" <;> cases n.function.to_string <;>
    simp [hf, String.append_assoc]

/-! ## Cardinality and diagnostics: further claims -/

/-- C11 (as amended): `EstimateCardinality` returns zero exactly when the estimate 0 is pinned
on the node, or no estimate is pinned and the source estimator returns statistics that carry
the estimate 0; in every other case the row count it returns is not zero. -/
theorem C11_estimate_zero (n : LogicalGet) (context : ClientContext) :
    n.EstimateCardinality context = 0 ↔
      (n.has_estimated_cardinality = true ∧ n.estimated_cardinality = 0) ∨
      (n.has_estimated_cardinality = false ∧
        ∃ cardinality stats, n.function.cardinality = some cardinality ∧
          cardinality context n.bind_data = some stats ∧
          stats.has_estimated_cardinality = true ∧ stats.estimated_cardinality = 0) := by
  unfold LogicalGet.EstimateCardinality
  cases hp : n.has_estimated_cardinality with
  | true => simp
  | false =>
    cases hc : n.function.cardinality with
    | none => simp
    | some cardinality =>
      cases hs : cardinality context n.bind_data with
      | none => simp [hs]
      | some stats =>
        cases he : stats.has_estimated_cardinality <;> simp [hs, he]

/-- C11, counterexample: with the estimate 0 pinned on it, `example_pinned_zero` is estimated at
zero rows. -/
theorem C11_counterexample : example_pinned_zero.EstimateCardinality ⟨0⟩ = 0 := rfl

/-- C14: the text of `ParamsToString` is the concatenation of three sections in this order:
the lines of the filters, in the order of the filter map, each the filter formatted against a
declared name and a line break; the section of the file filters, which is the separator line
and `File Filters: ` with the text when the text is not empty; the section of the source,
which is a line break and the text of the source formatter on the bind state when the source
has a formatter. A section is the empty text when its data is absent. -/
theorem C14_sections_in_order (n : LogicalGet) :
    n.ParamsToString
      = concat_texts (n.table_filters.filters.map
          (fun kv =>
            (if h : kv.1 < n.names.length then kv.2.ToString n.names[kv.1] else "") ++ "\n"))
        ++ ((if n.file_filters = "" then ""
            else "\n[INFOSEPARATOR]\n" ++ ("File Filters: " ++ n.file_filters))
          ++ (match n.function.to_string with
            | none => ""
            | some to_string => "\n" ++ to_string n.bind_data)) :=
  ParamsToString_eq n

/-- C14, witness: the example of the specification, without and with a source formatter. -/
theorem C14_sections_in_order_witness :
    example_filtered.ParamsToString
      = "a>5\nb=x\n" ++ "\n[INFOSEPARATOR]\nFile Filters: *.parquet" ∧
    example_filtered_printing.ParamsToString
      = "a>5\nb=x\n" ++ "\n[INFOSEPARATOR]\nFile Filters: *.parquet" ++ "\nstate of 2" ∧
    example_scan.ParamsToString = "" := by
  refine ⟨?_, ?_, ?_⟩
  · rw [C14_sections_in_order example_filtered]
    decide
  · rw [C14_sections_in_order example_filtered_printing]
    decide
  · rw [C14_sections_in_order example_scan]
    decide

/-- C15 (as amended): `ParamsToString` returns a text for every node. A filter whose key is
not below the number of declared names is not formatted and contributes one line break: the
text is that of the node without the filter, with a line break put in at the place of the
filter, after the lines of the filters before it; it is one character longer. -/
theorem C15_stray_filter_line (n : LogicalGet) (before after : List (Nat × TableFilter))
    (k : Nat) (f : TableFilter) (hk : ¬ k < n.names.length)
    (hf : n.table_filters.filters = before ++ (k, f) :: after) :
    ∃ head tail,
      head = concat_texts (before.map (spec_filter_line n.names)) ∧
      LogicalGet.ParamsToString { n with table_filters := ⟨before ++ after⟩ } = head ++ tail ∧
      n.ParamsToString = head ++ ("\n" ++ tail) ∧
      n.ParamsToString.length
        = (LogicalGet.ParamsToString { n with table_filters := ⟨before ++ after⟩ }).length + 1
    := by
  have hline : spec_filter_line n.names (k, f) = "\n" := by
    simp [spec_filter_line, hk]
  have h1 : n.ParamsToString
      = concat_texts (before.map (spec_filter_line n.names))
        ++ ("\n" ++ (concat_texts (after.map (spec_filter_line n.names))
          ++ (n.spec_file_section ++ n.spec_source_section))) := by
    rw [ParamsToString_eq, hf, List.map_append, List.map_cons, concat_texts_append,
      concat_texts, hline]
    simp only [String.append_assoc]
  have h2 : LogicalGet.ParamsToString { n with table_filters := ⟨before ++ after⟩ }
      = concat_texts (before.map (spec_filter_line n.names))
        ++ (concat_texts (after.map (spec_filter_line n.names))
          ++ (n.spec_file_section ++ n.spec_source_section)) := by
    rw [ParamsToString_eq]
    show concat_texts ((before ++ after).map (spec_filter_line n.names))
      ++ (n.spec_file_section ++ n.spec_source_section) = _
    rw [List.map_append, concat_texts_append, String.append_assoc]
  refine ⟨_, _, rfl, h2, h1, ?_⟩
  rw [h1, h2]
  simp only [String.length_append]
  have : "\n".length = 1 := rfl
  omega

/-- C15, witness: the filter of `example_stray_filter` has the key 7 and the node has three
declared names; the text is one line break, and the text without the filter is empty. -/
theorem C15_stray_filter_line_witness :
    example_stray_filter.ParamsToString = "\n" ∧
    LogicalGet.ParamsToString { example_stray_filter with table_filters := ⟨[]⟩ } = "" ∧
    example_stray_filter.ParamsToString.length
      = (LogicalGet.ParamsToString
          { example_stray_filter with table_filters := ⟨[] ++ []⟩ }).length + 1 := by
  obtain ⟨head, tail, _, _, _, h⟩ :=
    C15_stray_filter_line example_stray_filter [] [] 7 ⟨">5"⟩ (by decide) rfl
  exact ⟨by decide, by decide, h⟩

/-- C15, counterexample: the text of `example_stray_filter`, whose only filter has a key out of
range, is a line break, and the text of the same node without the filter is empty. -/
theorem C15_counterexample :
    example_stray_filter.table_filters.filters = [(7, ⟨">5"⟩)] ∧
    example_stray_filter.names.length = 3 ∧ example_stray_filter.column_ids.length = 2 ∧
    example_stray_filter.ParamsToString = "\n" ∧
    LogicalGet.ParamsToString { example_stray_filter with table_filters := ⟨[]⟩ } = "" ∧
    example_stray_filter.ParamsToString
      ≠ LogicalGet.ParamsToString { example_stray_filter with table_filters := ⟨[]⟩ } := by
  decide

/-- C18 (as amended): for every filter whose key `k` is below the number of declared names,
`ParamsToString` formats the filter against `names[k]`, the key taken as an index into the
declared names: the line of the filter is the filter formatted against `names[k]` and a line
break, and it stands after the lines of the filters before it and before the rest of the
text. -/
theorem C18_filter_name (n : LogicalGet) (before after : List (Nat × TableFilter))
    (k : Nat) (f : TableFilter) (hk : k < n.names.length)
    (hf : n.table_filters.filters = before ++ (k, f) :: after) :
    n.ParamsToString
      = concat_texts (before.map (spec_filter_line n.names))
        ++ ((f.ToString n.names[k] ++ "\n")
          ++ (concat_texts (after.map (spec_filter_line n.names))
            ++ (n.spec_file_section ++ n.spec_source_section))) := by
  have hline : spec_filter_line n.names (k, f) = f.ToString n.names[k] ++ "\n" := by
    simp [spec_filter_line, hk]
  rw [ParamsToString_eq, hf, List.map_append, List.map_cons, concat_texts_append,
    concat_texts, hline]
  simp only [String.append_assoc]

/-- C18, witness: the filter of `example_filtered_scan` has the key 0 and is formatted against
the first declared name. -/
theorem C18_filter_name_witness : example_filtered_scan.ParamsToString = "a>5\n" := by
  rw [C18_filter_name example_filtered_scan [] [] 0 ⟨">5"⟩ (by decide) rfl]
  decide

/-- C18, counterexample: `example_filtered_scan` reads the declared columns 2 and 0, so the key
0 of its filter refers to the read column 2, whose name is c; the filter is formatted against
the name a. -/
theorem C18_counterexample :
    example_filtered_scan.column_ids = [2, 0] ∧
    example_filtered_scan.names = ["a", "b", "c"] ∧
    example_filtered_scan.table_filters.filters = [(0, ⟨">5"⟩)] ∧
    example_filtered_scan.ParamsToString = "a>5\n" ∧
    example_filtered_scan.ParamsToString ≠ TableFilter.ToString ⟨">5"⟩ "c" ++ "\n" := by
  decide

/-! ## Schema resolution: lengths, frame and index safety -/

theorem mapM_length {α β : Type} (f : α → Except Error β) (l : List α) (ys : List β)
    (h : l.mapM f = .ok ys) : ys.length = l.length := by
  induction l generalizing ys with
  | nil =>
    rw [List.mapM_nil] at h
    cases h
    rfl
  | cons x xs ih =>
    rw [List.mapM_cons] at h
    cases hx : f x with
    | error e => rw [hx] at h; cases h
    | ok y =>
      rw [hx] at h
      cases hxs : List.mapM f xs with
      | error e => rw [hxs] at h; cases h
      | ok zs =>
        rw [hxs] at h
        cases h
        simp [ih zs hxs]

theorem mapM_ok_of_forall {α β : Type} (f : α → Except Error β) (l : List α)
    (h : ∀ x ∈ l, ∃ y, f x = .ok y) : ∃ ys, l.mapM f = .ok ys := by
  induction l with
  | nil => exact ⟨[], rfl⟩
  | cons x xs ih =>
    obtain ⟨y, hy⟩ := h x (List.mem_cons_self x xs)
    obtain ⟨ys, hys⟩ := ih (fun z hz => h z (List.mem_cons_of_mem x hz))
    refine ⟨y :: ys, ?_⟩
    rw [List.mapM_cons, hy, hys]
    rfl

theorem mapM_forall_of_ok {α β : Type} (f : α → Except Error β) (l : List α) (ys : List β)
    (h : l.mapM f = .ok ys) : ∀ x ∈ l, ∃ y, f x = .ok y := by
  induction l generalizing ys with
  | nil => intro x hx; cases hx
  | cons x xs ih =>
    rw [List.mapM_cons] at h
    cases hx : f x with
    | error e => rw [hx] at h; cases h
    | ok y =>
      rw [hx] at h
      cases hxs : List.mapM f xs with
      | error e => rw [hxs] at h; cases h
      | ok zs =>
        intro z hz
        rcases List.mem_cons.mp hz with hz | hz
        · exact ⟨y, hz ▸ hx⟩
        · exact ih zs hxs z hz

theorem vector_at_ok {α : Type} (v : List α) (i : Nat) (h : i < v.length) :
    vector_at v i = .ok v[i] := by
  simp [vector_at, List.getElem?_eq_getElem h]

theorem vector_at_lt {α : Type} (v : List α) (i : Nat) (x : α) (h : vector_at v i = .ok x) :
    i < v.length := by
  unfold vector_at at h
  split at h
  · next y hy =>
    rcases Nat.lt_or_ge i v.length with hlt | hge
    · exact hlt
    · rw [List.get?_eq_none.mpr hge] at hy
      cases hy
  · cases h

theorem spec_own_types_length (n : LogicalGet) (own : List LogicalType)
    (h : n.spec_own_types = .ok own) :
    own.length
      = if n.projection_ids = [] then n.spec_column_ids.length else n.projection_ids.length := by
  unfold LogicalGet.spec_own_types at h
  split at h
  · next hp => rw [if_pos hp]; exact mapM_length _ _ _ h
  · next hp => rw [if_neg hp]; exact mapM_length _ _ _ h

theorem spec_input_types_length (n : LogicalGet) (inp : List LogicalType)
    (h : n.spec_input_types = .ok inp) : inp.length = n.projected_input.length := by
  unfold LogicalGet.spec_input_types at h
  split at h
  · next hi =>
    cases h
    rw [hi]
    rfl
  · split at h
    · exact mapM_length _ _ _ h
    · cases h

theorem spec_input_bindings_length (n : LogicalGet) (inp : List ColumnBinding)
    (h : n.spec_input_bindings = .ok inp) : inp.length = n.projected_input.length := by
  unfold LogicalGet.spec_input_bindings at h
  split at h
  · next hi =>
    cases h
    rw [hi]
    rfl
  · split at h
    · exact mapM_length _ _ _ h
    · cases h

theorem spec_own_bindings_length (n : LogicalGet) :
    n.spec_own_bindings.length
      = if n.projection_ids = [] then n.column_ids.length else n.projection_ids.length := by
  unfold LogicalGet.spec_own_bindings
  split <;> simp

/-- C17: on the node that a successful `ResolveTypes` from an empty type list returns, every
list of bindings that `GetColumnBindings` returns has the length of the resolved type list;
and `GetColumnBindings` does return a list when each child has as many bindings as types. -/
theorem C17_bindings_parallel_to_types (n n1 : LogicalGet) (ht : n.types = [])
    (h : n.ResolveTypes = .ok n1) :
    (∀ bs, n1.GetColumnBindings = .ok bs → bs.length = n1.types.length) ∧
    ((∀ child ∈ n.children, child.bindings.length = child.types.length) →
      ∃ bs, n1.GetColumnBindings = .ok bs ∧ bs.length = n1.types.length) := by
  obtain ⟨own, inp, ho, hi, rfl⟩ := ResolveTypes_ok n n1 h
  have hne := spec_column_ids_ne_nil n
  have hlo := spec_own_types_length n own ho
  have hli := spec_input_types_length n inp hi
  have hg := GetColumnBindings_eq
    { n with column_ids := n.spec_column_ids, types := n.types ++ own ++ inp }
  rw [if_neg hne] at hg
  have hobl : (LogicalGet.spec_own_bindings
      { n with column_ids := n.spec_column_ids, types := n.types ++ own ++ inp }).length
      = if n.projection_ids = [] then n.spec_column_ids.length else n.projection_ids.length :=
    spec_own_bindings_length _
  have hlt : (n.types ++ own ++ inp).length = own.length + inp.length := by
    rw [ht]
    simp
  have hall : ∀ bs, LogicalGet.GetColumnBindings
      { n with column_ids := n.spec_column_ids, types := n.types ++ own ++ inp } = .ok bs →
      bs.length = (n.types ++ own ++ inp).length := by
    intro bs hbs
    rw [hg] at hbs
    cases hib : LogicalGet.spec_input_bindings
        { n with column_ids := n.spec_column_ids, types := n.types ++ own ++ inp } with
    | error e => rw [hib] at hbs; cases hbs
    | ok inb =>
      rw [hib] at hbs
      have hlb : inb.length = n.projected_input.length :=
        spec_input_bindings_length _ inb hib
      cases hbs
      rw [hlt, List.length_append, hobl, hlb, hlo, hli]
  refine ⟨hall, ?_⟩
  intro hch
  have hex : ∃ inb, LogicalGet.spec_input_bindings
      { n with column_ids := n.spec_column_ids, types := n.types ++ own ++ inp }
        = .ok inb := by
    show ∃ inb, n.spec_input_bindings = .ok inb
    unfold LogicalGet.spec_input_bindings
    unfold LogicalGet.spec_input_types at hi
    by_cases hpi : n.projected_input = []
    · exact ⟨[], by rw [if_pos hpi]⟩
    · rw [if_neg hpi] at hi ⊢
      match hc : n.children with
      | [child] =>
        rw [hc] at hi
        have hlen := hch child (by rw [hc]; exact List.mem_singleton_self child)
        refine mapM_ok_of_forall _ _ ?_
        intro e he
        obtain ⟨t, ht⟩ := mapM_forall_of_ok _ _ _ hi e he
        have hlt := vector_at_lt _ _ _ ht
        exact ⟨_, vector_at_ok _ _ (hlen ▸ hlt)⟩
      | [] => rw [hc] at hi; cases hi
      | _ :: _ :: _ => rw [hc] at hi; cases hi
  obtain ⟨inb, hinb⟩ := hex
  have hbs : LogicalGet.GetColumnBindings
      { n with column_ids := n.spec_column_ids, types := n.types ++ own ++ inp }
      = .ok (LogicalGet.spec_own_bindings
          { n with column_ids := n.spec_column_ids, types := n.types ++ own ++ inp } ++ inb)
      := by
    rw [hg, hinb]
    rfl
  exact ⟨_, hbs, hall _ hbs⟩

/-- C17, witness: `example_in_out` resolves to four types and has four bindings. -/
theorem C17_bindings_parallel_to_types_witness :
    ∃ bs, LogicalGet.GetColumnBindings
        { example_in_out with types := [⟨3⟩, ⟨1⟩, ⟨12⟩, ⟨10⟩] } = .ok bs ∧
      bs.length = 4 :=
  (C17_bindings_parallel_to_types example_in_out
    { example_in_out with types := [⟨3⟩, ⟨1⟩, ⟨12⟩, ⟨10⟩] } rfl rfl).2 (by decide)

/-- C19: the node `ResolveTypes` returns differs from the node it was called on in `types`
and `column_ids` only; its `column_ids` is not empty, is the previous list when that was not
empty and `[ROW_ID]` otherwise; `table_index`, `returned_types`, `names`, `projection_ids`,
the filters, `projected_input` and the arguments of the bind call are the previous ones.
`GetColumnBindings` (lines 50-75) assigns to no member, which is why it is a function from the
node to the list of bindings alone. -/
theorem C19_resolve_frame (n n1 : LogicalGet) (h : n.ResolveTypes = .ok n1) :
    n1 = { n with column_ids := n1.column_ids, types := n1.types } ∧
    n1.column_ids ≠ [] ∧
    (n.column_ids ≠ [] → n1.column_ids = n.column_ids) ∧
    (n.column_ids = [] → n1.column_ids = [COLUMN_IDENTIFIER_ROW_ID]) ∧
    n1.table_index = n.table_index ∧ n1.returned_types = n.returned_types ∧
    n1.names = n.names ∧ n1.projection_ids = n.projection_ids ∧
    n1.table_filters = n.table_filters ∧ n1.projected_input = n.projected_input ∧
    n1.parameters = n.parameters ∧ n1.named_parameters = n.named_parameters ∧
    n1.input_table_types = n.input_table_types ∧
    n1.input_table_names = n.input_table_names := by
  obtain ⟨own, inp, _, _, rfl⟩ := ResolveTypes_ok n n1 h
  refine ⟨rfl, spec_column_ids_ne_nil n, ?_, ?_, rfl, rfl, rfl, rfl, rfl, rfl, rfl, rfl, rfl,
    rfl⟩
  · intro hc
    exact spec_column_ids_of_ne n hc
  · intro hc
    show n.spec_column_ids = _
    simp [LogicalGet.spec_column_ids, hc]

/-- C19, witness: resolving `example_unresolved_in_out` puts the sentinel in `column_ids`, sets
the types, and leaves `projected_input` and the declared names as they were. -/
theorem C19_resolve_frame_witness :
    ∃ n1, example_unresolved_in_out.ResolveTypes = .ok n1 ∧
      n1.column_ids = [COLUMN_IDENTIFIER_ROW_ID] ∧ n1.projected_input = [0] ∧
      n1.names = ["a", "b", "c"] :=
  have h := C19_resolve_frame example_unresolved_in_out
    { example_unresolved_in_out with
      column_ids := [COLUMN_IDENTIFIER_ROW_ID], types := [LogicalType.ROW_TYPE, ⟨10⟩] } rfl
  ⟨_, rfl, h.2.2.2.1 rfl, h.2.2.2.2.2.2.2.2.2.1, h.2.2.2.2.2.2.1⟩

/-- C20: index safety of the schema resolution. If every entry of `projection_ids` is below the
length of the column list the node resolves against (`column_ids` after the sentinel
default), every entry of `column_ids` other than the sentinel is below the number of declared
types, and either `projected_input` is empty or there is exactly one child and every entry of
`projected_input` is below the number of its types and of its bindings, then `ResolveTypes`
returns a node and `GetColumnBindings` returns a list: no access is out of range and no error
is raised. -/
theorem C20_index_safety (n : LogicalGet)
    (hp : ∀ p ∈ n.projection_ids, p < n.spec_column_ids.length)
    (hc : ∀ c ∈ n.column_ids, c ≠ COLUMN_IDENTIFIER_ROW_ID → c < n.returned_types.length)
    (hi : n.projected_input = [] ∨
      ∃ child, n.children = [child] ∧
        ∀ e ∈ n.projected_input, e < child.types.length ∧ e < child.bindings.length) :
    (∃ n1, n.ResolveTypes = .ok n1) ∧ (∃ bs, n.GetColumnBindings = .ok bs) := by
  have hcol : ∀ c ∈ n.spec_column_ids, ∃ t, column_type n.returned_types c = .ok t := by
    intro c hmem
    unfold column_type
    by_cases hr : c = COLUMN_IDENTIFIER_ROW_ID
    · exact ⟨_, by rw [if_pos hr]⟩
    · rw [if_neg hr]
      have hin : c ∈ n.column_ids := by
        unfold LogicalGet.spec_column_ids at hmem
        split at hmem
        · exact absurd (List.mem_singleton.mp hmem) hr
        · exact hmem
      exact ⟨_, vector_at_ok _ _ (hc c hin hr)⟩
  have hown : ∃ own, n.spec_own_types = .ok own := by
    unfold LogicalGet.spec_own_types
    split
    · exact mapM_ok_of_forall _ _ hcol
    · refine mapM_ok_of_forall _ _ ?_
      intro p hpm
      have hlt := hp p hpm
      rw [vector_at_ok _ _ hlt]
      exact hcol _ (List.getElem_mem hlt)
  have hinp : ∃ inp, n.spec_input_types = .ok inp := by
    unfold LogicalGet.spec_input_types
    rcases hi with hi | ⟨child, hch, hall⟩
    · exact ⟨[], by rw [if_pos hi]⟩
    · split
      · exact ⟨[], rfl⟩
      · rw [hch]
        exact mapM_ok_of_forall _ _ (fun e he => ⟨_, vector_at_ok _ _ (hall e he).1⟩)
  have hinb : ∃ inb, n.spec_input_bindings = .ok inb := by
    unfold LogicalGet.spec_input_bindings
    rcases hi with hi | ⟨child, hch, hall⟩
    · exact ⟨[], by rw [if_pos hi]⟩
    · split
      · exact ⟨[], rfl⟩
      · rw [hch]
        exact mapM_ok_of_forall _ _ (fun e he => ⟨_, vector_at_ok _ _ (hall e he).2⟩)
  obtain ⟨own, ho⟩ := hown
  obtain ⟨inp, hn⟩ := hinp
  obtain ⟨inb, hb⟩ := hinb
  constructor
  · exact ⟨_, by rw [ResolveTypes_eq, ho, hn]; rfl⟩
  · rw [GetColumnBindings_eq]
    split
    · exact ⟨_, rfl⟩
    · exact ⟨_, by rw [hb]; rfl⟩

/-- C20, witness: all indices of `example_in_out` are in range, and both functions return. -/
theorem C20_index_safety_witness :
    (∃ n1, example_in_out.ResolveTypes = .ok n1) ∧
    (∃ bs, example_in_out.GetColumnBindings = .ok bs) :=
  C20_index_safety example_in_out (by decide) (by decide)
    (Or.inr ⟨example_child, rfl, by decide⟩)

/-! ## Persistence: field order, agreement of the decoders, unchecked projections -/

theorem mapM_error_of_mem {α β : Type} (f : α → Except Error β) (l : List α) (x : α)
    (hx : x ∈ l) (hf : ∃ e, f x = .error e) : ∃ e, l.mapM f = .error e := by
  cases h : l.mapM f with
  | error e => exact ⟨e, rfl⟩
  | ok ys =>
    obtain ⟨y, hy⟩ := mapM_forall_of_ok f l ys h x hx
    obtain ⟨e, he⟩ := hf
    rw [he] at hy
    cases hy

theorem vector_at_ge {α : Type} (v : List α) (i : Nat) (h : ¬ i < v.length) :
    vector_at v i = .error Error.IndexOutOfRange := by
  unfold vector_at
  rw [List.get?_eq_none.mpr (Nat.le_of_not_lt h)]

/-- C16 (as amended): neither decoder examines `projection_ids`. On the direct-codec path the
node that `Deserialize`, respectively `FormatDeserialize`, returns has the `projection_ids` and
the `column_ids` that were written, whatever they are; a node with an entry of
`projection_ids` that is not below the length of the column list it resolves against is
turned down only when its types are resolved, where `ResolveTypes` reads `column_ids` out of
range. -/
theorem C16_projection_ids_unchecked (n : LogicalGet) (state : LogicalDeserializationState)
    (hcat : state.catalog n.function.name = some n.function) :
    (∀ ser de, n.function.serialize = some ser → n.function.deserialize = some de →
      (∀ rest, de (ser n.bind_data ++ rest) = .ok (n.bind_data, rest)) →
      ∃ r, LogicalGet.Deserialize state n.Serialize = .ok r ∧
        r.projection_ids = n.projection_ids ∧ r.column_ids = n.column_ids) ∧
    (∀ ser de, n.function.format_serialize = some ser →
      n.function.format_deserialize = some de →
      (∀ rest, de (ser n.bind_data ++ rest) = .ok (n.bind_data, rest)) →
      ∃ r, LogicalGet.FormatDeserialize state
          (n.FormatSerialize.drop (LogicalOperator.FormatSerialize n).length) = .ok r ∧
        r.projection_ids = n.projection_ids ∧ r.column_ids = n.column_ids) ∧
    ((∃ p ∈ n.projection_ids, ¬ p < n.spec_column_ids.length) →
      n.ResolveTypes = .error Error.IndexOutOfRange) := by
  refine ⟨?_, ?_, ?_⟩
  · intro ser de hs hd hr
    exact ⟨_, Deserialize_direct n state ser de hcat hs hd (hr _), rfl, rfl⟩
  · intro ser de hs hd hr
    exact ⟨_, FormatDeserialize_direct n state ser de hcat hs hd (hr _), rfl, rfl⟩
  · rintro ⟨p, hp, hlt⟩
    have hne : n.projection_ids ≠ [] := by
      intro h
      rw [h] at hp
      cases hp
    have hfail : ∃ e, n.spec_own_types = .error e := by
      unfold LogicalGet.spec_own_types
      rw [if_neg hne]
      refine mapM_error_of_mem _ _ p hp ⟨Error.IndexOutOfRange, ?_⟩
      rw [vector_at_ge _ _ hlt]
      rfl
    obtain ⟨e, he⟩ := hfail
    have := spec_own_types_error n e he
    subst this
    rw [ResolveTypes_eq, he]
    rfl

/-- C16, witness: `example_bad_projection` reads one column and projects a fifth; both decoders
return it with that projection, and `ResolveTypes` fails on it. -/
theorem C16_projection_ids_unchecked_witness :
    (∃ r, LogicalGet.Deserialize (example_state example_codec_function)
        example_bad_projection.Serialize = .ok r ∧
      r.projection_ids = [5] ∧ r.column_ids = [0]) ∧
    (∃ r, LogicalGet.FormatDeserialize (example_state example_codec_function)
        (example_bad_projection.FormatSerialize.drop
          (LogicalOperator.FormatSerialize example_bad_projection).length) = .ok r ∧
      r.projection_ids = [5] ∧ r.column_ids = [0]) ∧
    example_bad_projection.ResolveTypes = .error Error.IndexOutOfRange :=
  have h := C16_projection_ids_unchecked example_bad_projection
    (example_state example_codec_function) rfl
  ⟨h.1 _ _ rfl rfl (fun _ => rfl), h.2.1 _ _ rfl rfl (fun _ => rfl),
    h.2.2 ⟨5, by decide, by decide⟩⟩

/-- C16, counterexample: the record of `example_bad_projection`, whose `projection_ids` is `[5]`
and whose `column_ids` is `[0]`, is decoded without an error into a node with these lists. -/
theorem C16_counterexample :
    ∃ r, LogicalGet.Deserialize (example_state example_codec_function)
        example_bad_projection.Serialize = .ok r ∧
      r.projection_ids = [5] ∧ r.column_ids = [0] ∧
      ¬ (∀ p ∈ r.projection_ids, p < r.column_ids.length) :=
  ⟨_, Deserialize_direct example_bad_projection (example_state example_codec_function) _ _
    rfl rfl rfl rfl, rfl, rfl, by decide⟩

/-- C12: both encoders write, in this order, `table_index`, `returned_types`, `names`,
`column_ids`, `projection_ids` and the filters; then the identity of the source with the flag
of the direct codec, followed by the bind state as the codec writes it when the source has
one; then, exactly when the source has no direct codec, `parameters`, `named_parameters`,
`input_table_types` and `input_table_names`; and last `projected_input`. `Serialize` writes the
named parameters as their number followed by the pairs; `FormatSerialize` writes the properties
of the base class before those of the node. -/
theorem C12_field_order (n : LogicalGet) :
    (∀ ser, n.function.serialize = some ser →
      n.Serialize
        = [Field.idx n.table_index, Field.types n.returned_types, Field.strings n.names,
            Field.columns n.column_ids, Field.columns n.projection_ids,
            Field.filters n.table_filters]
          ++ ([Field.str n.function.name, Field.bool true] ++ ser n.bind_data)
          ++ [Field.columns n.projected_input]) ∧
    (n.function.serialize = none →
      n.Serialize
        = [Field.idx n.table_index, Field.types n.returned_types, Field.strings n.names,
            Field.columns n.column_ids, Field.columns n.projection_ids,
            Field.filters n.table_filters]
          ++ [Field.str n.function.name, Field.bool false]
          ++ ([Field.values n.parameters, Field.idx n.named_parameters.length]
            ++ n.named_parameters.flatMap (fun pair => [Field.str pair.1, Field.value pair.2])
            ++ [Field.types n.input_table_types, Field.strings n.input_table_names])
          ++ [Field.columns n.projected_input]) ∧
    (∀ ser, n.function.format_serialize = some ser →
      n.FormatSerialize
        = LogicalOperator.FormatSerialize n
          ++ [Token.property "table_index" (.idx n.table_index),
              Token.property "returned_types" (.types n.returned_types),
              Token.property "names" (.strings n.names),
              Token.property "column_ids" (.columns n.column_ids),
              Token.property "projection_ids" (.columns n.projection_ids),
              Token.property "table_filters" (.filters n.table_filters)]
          ++ ([Token.property "name" (.str n.function.name),
                Token.property "has_serialize" (.bool true),
                Token.begin_object "function_data"]
              ++ ser n.bind_data ++ [Token.end_object])
          ++ [Token.property "projected_input" (.columns n.projected_input)]) ∧
    (n.function.format_serialize = none →
      n.FormatSerialize
        = LogicalOperator.FormatSerialize n
          ++ [Token.property "table_index" (.idx n.table_index),
              Token.property "returned_types" (.types n.returned_types),
              Token.property "names" (.strings n.names),
              Token.property "column_ids" (.columns n.column_ids),
              Token.property "projection_ids" (.columns n.projection_ids),
              Token.property "table_filters" (.filters n.table_filters)]
          ++ [Token.property "name" (.str n.function.name),
              Token.property "has_serialize" (.bool false)]
          ++ [Token.property "parameters" (.values n.parameters),
              Token.property "named_parameters" (.named_values n.named_parameters),
              Token.property "input_table_types" (.types n.input_table_types),
              Token.property "input_table_names" (.strings n.input_table_names)]
          ++ [Token.property "projected_input" (.columns n.projected_input)]) := by
  refine ⟨?_, ?_, ?_, ?_⟩
  · intro ser hs
    simp [LogicalGet.Serialize, FunctionSerializer.SerializeBase, hs]
  · intro hs
    simp [LogicalGet.Serialize, FunctionSerializer.SerializeBase, hs, foldl_push_pair]
  · intro ser hs
    simp [LogicalGet.FormatSerialize, FunctionSerializer.FormatSerialize, hs]
  · intro hs
    simp [LogicalGet.FormatSerialize, FunctionSerializer.FormatSerialize, hs]

/-- C12, witness: the record of `example_codec_scan`, whose source has a direct codec, and the
record of `example_rebind_scan`, whose source has none, in the positional encoding. -/
theorem C12_field_order_witness :
    example_codec_scan.Serialize
      = [Field.idx 7, Field.types [⟨1⟩, ⟨2⟩, ⟨3⟩], Field.strings ["a", "b", "c"],
          Field.columns [2, 0], Field.columns [1], Field.filters ⟨[(0, ⟨">5"⟩)]⟩,
          Field.str "codec_scan", Field.bool true, Field.data [4, 2], Field.columns []] ∧
    example_rebind_scan.Serialize
      = [Field.idx 7, Field.types [⟨1⟩, ⟨2⟩, ⟨3⟩], Field.strings ["a", "b", "c"],
          Field.columns [2, 0], Field.columns [1], Field.filters ⟨[]⟩,
          Field.str "rebind_scan", Field.bool false, Field.values [⟨9⟩], Field.idx 1,
          Field.str "header", Field.value ⟨1⟩, Field.types [], Field.strings [],
          Field.columns []] :=
  ⟨(C12_field_order example_codec_scan).1 _ rfl, (C12_field_order example_rebind_scan).2.1 rfl⟩

/-- C13, at the failing input: the record of `example_rebind_scan` in the two encodings is
decoded against the same registry, with the same bind operation. Both decoders succeed and the
two nodes agree on `table_index`, `returned_types`, `names`, `column_ids`, `projection_ids`,
the filters, the arguments of the bind call and `projected_input`; the node of `Deserialize`
carries the source and the bind state that bind returned, the node of `FormatDeserialize` the
default-constructed source and no bind state. -/
theorem C13_decoders_disagree :
    ∃ r1 r2,
      LogicalGet.Deserialize (example_state example_rebind_function)
        example_rebind_scan.Serialize = .ok r1 ∧
      LogicalGet.FormatDeserialize (example_state example_rebind_function)
        (example_rebind_scan.FormatSerialize.drop
          (LogicalOperator.FormatSerialize example_rebind_scan).length) = .ok r2 ∧
      r1.table_index = r2.table_index ∧ r1.returned_types = r2.returned_types ∧
      r1.names = r2.names ∧ r1.column_ids = r2.column_ids ∧
      r1.projection_ids = r2.projection_ids ∧ r1.table_filters = r2.table_filters ∧
      r1.parameters = r2.parameters ∧ r1.named_parameters = r2.named_parameters ∧
      r1.input_table_types = r2.input_table_types ∧
      r1.input_table_names = r2.input_table_names ∧
      r1.projected_input = r2.projected_input ∧
      r1.function.name = "rebind_scan" ∧ r2.function.name = "" ∧
      r1.function.bind.isSome = true ∧ r2.function.bind.isSome = false ∧
      r1.bind_data = some ⟨[1]⟩ ∧ r2.bind_data = none :=
  ⟨{ LogicalGet.create 7 example_rebind_function (some ⟨[1]⟩) [⟨1⟩, ⟨2⟩, ⟨3⟩] ["a", "b", "c"] with
      column_ids := [2, 0], projection_ids := [1], parameters := [⟨9⟩],
      named_parameters := [("header", ⟨1⟩)] },
   { LogicalGet.default with
      table_index := 7, returned_types := [⟨1⟩, ⟨2⟩, ⟨3⟩], names := ["a", "b", "c"],
      column_ids := [2, 0], projection_ids := [1], parameters := [⟨9⟩],
      named_parameters := [("header", ⟨1⟩)] },
   rfl, rfl, rfl, rfl, rfl, rfl, rfl, rfl, rfl, rfl, rfl, rfl, rfl, rfl, rfl, rfl, rfl, rfl,
   rfl⟩

end duckdb
